import Mathlib

/-!
Automation executor of the cluster agent.

A shallow embedding of `src/executor/executor.go` and
`src/executor/status_handler.go`, followed by theorems about it.

Conventions of the embedding:

* Go pointers that may be nil (`*int64`, `*RequestLimit`) are `Option`s.
* `int64` and `int32` values are `Int`; the only arithmetic that can leave the
  machine range is the `runningPods++` of the pod scan, which wraps explicitly.
* Go's `/` on integers truncates toward zero: `Int.tdiv`.
* A Go runtime panic (index out of range, nil dereference) is the `error` side
  of `Except Panic`.
* The collaborators (discovery, cluster mutation, cluster queries) are not part
  of the sources; they are a record of response functions. Each response may
  depend on every call made so far, so that any behaviour of a collaborator,
  including one that changes from call to call, is an instance.
-/

namespace MagalixAgent

/-! ## Data model -/

/-- Runtime panics of the Go code. -/
inductive Panic where
  | indexOutOfRange
  | nilDereference
  deriving DecidableEq, Repr

/-- The type `kuber.RequestLimit` (also `proto.RequestLimit`): two optional quantities. -/
structure RequestLimit where
  CPU : Option Int
  Memory : Option Int
  deriving DecidableEq, Repr

/-- The type `kuber.ContainerResourcesRequirements`, with the fields the executor uses. -/
structure ContainerResourcesRequirements where
  Name : String
  Requests : Option RequestLimit
  Limits : Option RequestLimit
  deriving DecidableEq, Repr

/-- The type `kuber.TotalResources`, with the field the executor uses. -/
structure TotalResources where
  Containers : List ContainerResourcesRequirements
  deriving DecidableEq, Repr

/-- The resource override carried by a command (`automation.ContainerResources`). -/
structure ContainerResources where
  Requests : Option RequestLimit
  Limits : Option RequestLimit
  deriving DecidableEq, Repr

/-- The type `proto.PacketAutomation`. -/
structure PacketAutomation where
  ID : String
  NamespaceName : String
  ControllerName : String
  ControllerKind : String
  ContainerName : String
  ContainerResources : ContainerResources
  deriving DecidableEq, Repr

/-- What `buildOriginalResourcesFromContainer` reads from a `kv1.Container`: its name and
the four quantities `Resources.Limits.Memory().Value()`, `Resources.Requests.Memory().Value()`,
`Resources.Limits.Cpu().MilliValue()` and `Resources.Requests.Cpu().MilliValue()`. -/
structure Container where
  Name : String
  memoryLimit : Int
  memoryRequest : Int
  cpuLimit : Int
  cpuRequest : Int
  deriving DecidableEq, Repr

/-! ## Resource delta calculator -/

/-- The function `buildRecommendedResourcesFromAutomation` of `executor.go`: the original values are copied,
then each value the automation specifies replaces the copy. `Containers[0]` panics on an
empty list and `.Requests.CPU`, `.Limits.CPU` panic on a nil group. -/
def buildRecommendedResourcesFromAutomation (originalResources : TotalResources)
    (automation : PacketAutomation) : Except Panic TotalResources :=
  match originalResources.Containers with
  | [] => .error .indexOutOfRange
  | c0 :: _ =>
    match c0.Requests, c0.Limits with
    | none, _ => .error .nilDereference
    | some _, none => .error .nilDereference
    | some oreq, some olim =>
      -- Copy original values
      let reqCPU := oreq.CPU
      let reqMemory := oreq.Memory
      let limCPU := olim.CPU
      let limMemory := olim.Memory
      -- Override with values from automation
      let (reqCPU, reqMemory) :=
        match automation.ContainerResources.Requests with
        | some r =>
          ((match r.CPU with | some v => some v | none => reqCPU),
           (match r.Memory with | some v => some v | none => reqMemory))
        | none => (reqCPU, reqMemory)
      let (limCPU, limMemory) :=
        match automation.ContainerResources.Limits with
        | some l =>
          ((match l.CPU with | some v => some v | none => limCPU),
           (match l.Memory with | some v => some v | none => limMemory))
        | none => (limCPU, limMemory)
      .ok { Containers :=
              [{ Name := c0.Name
                 Requests := some { CPU := reqCPU, Memory := reqMemory }
                 Limits := some { CPU := limCPU, Memory := limMemory } }] }

/-- The function `buildOriginalResourcesFromContainer` of `executor.go`: a quantity read as zero is left
nil; memory is converted from bytes by two divisions by 1024. -/
def buildOriginalResourcesFromContainer (container : Container) : TotalResources :=
  { Containers :=
      [{ Name := container.Name
         Requests := some
           { CPU := if container.cpuRequest ≠ 0 then some container.cpuRequest else none
             Memory :=
               if container.memoryRequest ≠ 0 then
                 some ((container.memoryRequest.tdiv 1024).tdiv 1024)
               else none }
         Limits := some
           { CPU := if container.cpuLimit ≠ 0 then some container.cpuLimit else none
             Memory :=
               if container.memoryLimit ≠ 0 then
                 some ((container.memoryLimit.tdiv 1024).tdiv 1024)
               else none } }] }

/-- The function `convertAutomationMemoryFromKiloByteToMegabyte` of `executor.go`: each memory override that
is present is divided by 1024 in place. -/
def convertAutomationMemoryFromKiloByteToMegabyte (automation : PacketAutomation) :
    PacketAutomation :=
  let requests :=
    match automation.ContainerResources.Requests with
    | some r =>
      (match r.Memory with
       | some m => some { r with Memory := some (m.tdiv 1024) }
       | none => some r)
    | none => none
  let limits :=
    match automation.ContainerResources.Limits with
    | some l =>
      (match l.Memory with
       | some m => some { l with Memory := some (m.tdiv 1024) }
       | none => some l)
    | none => none
  { automation with ContainerResources := { Requests := requests, Limits := limits } }

/-- The value of one field after the merge, as the specification words it: the override
when it specifies the field, the original otherwise. -/
def mergedField (original : Option Int) (group : Option RequestLimit)
    (field : RequestLimit → Option Int) : Option Int :=
  match group with
  | some g => (match field g with | some v => some v | none => original)
  | none => original

/-! ## Cluster objects and collaborators -/

/-- The type `kv1.PodPhase`, a string type. -/
abbrev PodPhase := String

/-- The constant `kv1.PodPending`. -/
abbrev PodPending : PodPhase := "Pending"
/-- The constant `kv1.PodRunning`. -/
abbrev PodRunning : PodPhase := "Running"
/-- The constant `kv1.PodFailed`. -/
abbrev PodFailed : PodPhase := "Failed"
/-- The constant `kv1.PodUnknown`. -/
abbrev PodUnknown : PodPhase := "Unknown"

/-- The fields of a `kv1.Pod` the verifier reads. -/
structure Pod where
  Name : String
  GenerateName : String
  Phase : PodPhase
  deriving DecidableEq, Repr

/-- The fields of a replica set the verifier reads; `SpecReplicas` is the pointer
`Spec.Replicas`, the creation time is a number of seconds. -/
structure ReplicaSet where
  Name : String
  SpecReplicas : Option Int
  StatusReplicas : Int
  StatusReadyReplicas : Int
  CreationTimestamp : Int
  deriving DecidableEq, Repr

/-- The fields of a stateful set the verifier reads. -/
structure StatefulSet where
  Name : String
  SpecReplicas : Option Int
  StatusReadyReplicas : Int
  deriving DecidableEq, Repr

/-- The fields of a daemon set the verifier reads. -/
structure DaemonSet where
  Name : String
  StatusNumberReady : Int
  StatusDesiredNumberScheduled : Int
  deriving DecidableEq, Repr

/-- The field of a cron job the verifier reads. -/
structure CronJob where
  Name : String
  deriving DecidableEq, Repr

/-- The struct `Replica` as `deploymentsHandler` builds and reads it. -/
structure Replica where
  name : String
  replicas : Int
  readyReplicas : Int
  time : Int
  deriving DecidableEq, Repr

/-- One call to a collaborator, with its arguments. -/
inductive Call where
  | FindContainer (namespaceName controllerKind controllerName containerName : String)
  | SetResources (kind name namespaceName : String) (totalResources : TotalResources)
  | GetStatefulSet (namespaceName name : String)
  | GetDaemonSet (namespaceName name : String)
  | GetCronJob (namespaceName name : String)
  | GetNamespaceReplicaSets (namespaceName : String)
  | GetNameSpacePods (namespaceName : String)
  deriving DecidableEq, Repr

/-- The interface `EntitiesFinder` (discovery collaborator). The first argument of the
response function is the list of calls made before this one. The pointer returned
may be nil. -/
structure EntitiesFinder where
  FindContainer : List Call → String → String → String → String →
    Except String (Option Container)

/-- The methods of `kuber.Kube` the executor calls (cluster mutation and cluster query
collaborators). The first argument of each response function is the list of calls made
before this one. `GetNamespaceReplicaSets` returns its pointer and its error side by
side because `deploymentsHandler` reads the pointer without looking at the error. -/
structure Kube where
  SetResources : List Call → String → String → String → TotalResources → Bool × Option String
  GetStatefulSet : List Call → String → String → Except String StatefulSet
  GetDaemonSet : List Call → String → String → Except String DaemonSet
  GetCronJob : List Call → String → String → Except String CronJob
  GetNamespaceReplicaSets : List Call → String → Option (List ReplicaSet) × Option String
  GetNameSpacePods : List Call → String → Except String (List Pod)

/-- Library code and the clock, which the sources call but do not contain.
`Transcode` is the json round trip of `utils.Transcode` on the container found;
`sortSlice` is `sort.Slice` with its `less` function; `pollBudget` is the number of
times the loop condition `time.Now().Sub(start) < automationsExecutionTimeout` holds
before the ceiling elapses when the polling loop is not left early. -/
structure Runtime where
  Transcode : Option Container → Except String Container
  sortSlice : (Replica → Replica → Bool) → List Replica → List Replica
  pollBudget : List Call → Nat

/-- The enumeration `proto.AutomationStatus`. -/
inductive AutomationStatus where
  | AutomationExecuted
  | AutomationFailed
  deriving DecidableEq, Repr

/-- The type `proto.PacketAutomationFeedbackRequest`. -/
structure PacketAutomationFeedbackRequest where
  ID : String
  NamespaceName : String
  ControllerName : String
  ControllerKind : String
  ContainerName : String
  Status : AutomationStatus
  Message : String
  deriving DecidableEq, Repr

/-- The type `proto.PacketAutomationResponse`. -/
structure PacketAutomationResponse where
  ID : String
  Error : Option String
  deriving DecidableEq, Repr

/-- The struct `Executor`: the collaborators, the mode, and the two pieces of shared state.
The map `inProgressJobs` only ever holds the value `true`, so it is the list of its keys;
the channel `automationsChan` is the list of the commands waiting in it, oldest first. -/
structure Executor where
  kube : Kube
  entitiesFinder : EntitiesFinder
  rt : Runtime
  dryRun : Bool
  workersCount : Nat
  automationsChan : List PacketAutomation
  inProgressJobs : List String

/-- The constant `automationsBufferLength`. -/
def automationsBufferLength : Nat := 1000

/-! ## Strings -/

/-- Whether the characters `p` start the characters `s`. -/
def startsWithChars : List Char → List Char → Bool
  | _, [] => true
  | [], _ :: _ => false
  | c :: s, d :: p => c == d && startsWithChars s p

/-- Whether the characters `sub` occur in `s` as a contiguous block. -/
def containsChars : List Char → List Char → Bool
  | [], sub => sub.isEmpty
  | c :: s, sub => startsWithChars (c :: s) sub || containsChars s sub

/-- The library function `strings.Contains`. -/
def stringsContains (s substr : String) : Bool :=
  containsChars s.data substr.data

/-- The library function `strings.ToLower`, on the letters `A` to `Z`. The other characters
are left as they are: none of them lower-cases to a letter of the kind names the verifier
compares with. -/
def stringsToLower (s : String) : String :=
  ⟨s.data.map Char.toLower⟩

/-- An `int32` after an arithmetic operation: the result wraps around. -/
def wrapInt32 (x : Int) : Int :=
  (x + 2147483648) % 4294967296 - 2147483648

/-! ## Rollout verifier -/

/-- The loop of `deploymentsHandler` that builds `currentReplicas`: the replica sets whose
name contains `entityName` and that report a replica, in the order listed. Reading
`*replica.Spec.Replicas` panics on a nil pointer. -/
def collectReplicas (entityName : String) : List ReplicaSet → Except Panic (List Replica)
  | [] => .ok []
  | replica :: rest =>
    if stringsContains replica.Name entityName && decide (replica.StatusReplicas > 0) then
      match replica.SpecReplicas with
      | none => .error .nilDereference
      | some n =>
        match collectReplicas entityName rest with
        | .error p => .error p
        | .ok more =>
          .ok ({ name := replica.Name, replicas := n,
                 readyReplicas := replica.StatusReadyReplicas,
                 time := replica.CreationTimestamp } :: more)
    else collectReplicas entityName rest

/-- The fallback loop of `deploymentsHandler`: the name of the first replica with a ready
replica, the empty string when there is none. -/
def firstReadyName : List Replica → String
  | [] => ""
  | replica :: rest => if replica.readyReplicas > 0 then replica.name else firstReadyName rest

/-- The method `Executor.deploymentsHandler` of `status_handler.go`. The error of the listing is not
looked at and `replicasets.Items` is read at once; `currentReplicas[0]` panics when no
replica set passed the filter. The error returned is always nil. -/
def Executor.deploymentsHandler (executor : Executor) (entityName namespaceName : String)
    (log : List Call) : Except Panic ((String × Int × Option String) × List Call) :=
  let replicasets := (executor.kube.GetNamespaceReplicaSets log namespaceName).1
  let log := log ++ [Call.GetNamespaceReplicaSets namespaceName]
  match replicasets with
  | none => .error .nilDereference
  | some items =>
    match collectReplicas entityName items with
    | .error p => .error p
    | .ok currentReplicas =>
      match executor.rt.sortSlice (fun a b => decide (a.time > b.time)) currentReplicas with
      | [] => .error .indexOutOfRange
      | r0 :: sorted =>
        let deploymentName :=
          if r0.readyReplicas ≥ 0 then r0.name else firstReadyName (r0 :: sorted)
        .ok ((deploymentName, r0.replicas, none), log)

/-- The method `Executor.statefulsetsHandler` of `status_handler.go`. -/
def Executor.statefulsetsHandler (executor : Executor) (entityName namespaceName : String)
    (log : List Call) : Except Panic ((String × Int × Option String) × List Call) :=
  let log1 := log ++ [Call.GetStatefulSet namespaceName entityName]
  match executor.kube.GetStatefulSet log namespaceName entityName with
  | .error err => .ok (("", 0, some err), log1)
  | .ok statefulset =>
    if statefulset.StatusReadyReplicas > 0 then
      match statefulset.SpecReplicas with
      | none => .error .nilDereference
      | some n => .ok ((statefulset.Name, n, none), log1)
    else .ok (("", 0, none), log1)

/-- The method `Executor.daemonsetsHandler` of `status_handler.go`. -/
def Executor.daemonsetsHandler (executor : Executor) (entityName namespaceName : String)
    (log : List Call) : (String × Int × Option String) × List Call :=
  let log1 := log ++ [Call.GetDaemonSet namespaceName entityName]
  match executor.kube.GetDaemonSet log namespaceName entityName with
  | .error err => (("", 0, some err), log1)
  | .ok daemonSet =>
    if daemonSet.StatusNumberReady > 0 then
      ((daemonSet.Name, daemonSet.StatusDesiredNumberScheduled, none), log1)
    else (("", 0, none), log1)

/-- The scan of the pod list in one poll iteration (`for _, pod := range pods.Items`),
from the values `status` and `runningPods` have when the pod is reached; it returns the
values they have when the loop is left. -/
def scanPods (objectName : String) : List Pod → PodPhase → Int → PodPhase × Int
  | [], status, runningPods => (status, runningPods)
  | pod :: rest, status, runningPods =>
    if stringsContains pod.GenerateName objectName then
      if pod.Phase = PodRunning then
        scanPods objectName rest pod.Phase (wrapInt32 (runningPods + 1))
      else if pod.Phase ≠ PodPending then
        (pod.Phase, runningPods)
      else scanPods objectName rest pod.Phase runningPods
    else scanPods objectName rest status runningPods

/-- What `podsStatusHandler` returns: `result`, `msg`, `targetPods`, `runningPods`. -/
abbrev VerifierResult := AutomationStatus × String × Int × Int

/-- The polling loop of `podsStatusHandler`. The first argument counts the iterations the
clock still admits; `objectName`, `targetPods` and `runningPods` are the variables of that
name as they stand when the loop condition is evaluated. -/
def Executor.pollLoop (executor : Executor) (entityName namespaceName kind : String)
    (statusMap : PodPhase → String) :
    Nat → String → Int → Int → List Call → Except Panic (VerifierResult × List Call)
  | 0, _, targetPods, runningPods, log =>
    .ok ((.AutomationFailed, "pods restarting exceeded timout (15 min)", targetPods,
      runningPods), log)
  | budget + 1, objectName, targetPods, runningPods, log =>
    let resolved : Except Panic ((String × Int × Option String) × List Call) :=
      if stringsToLower kind = "deployment" then
        executor.deploymentsHandler entityName namespaceName log
      else .ok ((objectName, targetPods, none), log)
    match resolved with
    | .error p => .error p
    | .ok ((_, targetPods, some _), log) =>
      .ok ((.AutomationFailed, "failed to trigger pod status", targetPods, runningPods), log)
    | .ok ((objectName, targetPods, none), log) =>
      let log1 := log ++ [Call.GetNameSpacePods namespaceName]
      match executor.kube.GetNameSpacePods log namespaceName with
      | .error _ =>
        .ok ((.AutomationFailed, "failed to trigger pod status", targetPods, runningPods),
          log1)
      | .ok pods =>
        let scanned := scanPods objectName pods PodPending 0
        if scanned.2 = targetPods then
          .ok ((.AutomationExecuted, statusMap scanned.1, targetPods, scanned.2), log1)
        else executor.pollLoop entityName namespaceName kind statusMap budget objectName
          targetPods scanned.2 log1

/-- The method `Executor.podsStatusHandler` of `status_handler.go`: the upfront resolution by kind, then
the polling loop unless the resolution failed. -/
def Executor.podsStatusHandler (executor : Executor) (entityName namespaceName kind : String)
    (statusMap : PodPhase → String) (log : List Call) :
    Except Panic (VerifierResult × List Call) :=
  let budget := executor.rt.pollBudget log
  let dispatched : Except Panic ((String × Int × Option String) × List Call) :=
    if stringsToLower kind = "statefulset" then
      executor.statefulsetsHandler entityName namespaceName log
    else if stringsToLower kind = "daemonset" then
      .ok (executor.daemonsetsHandler entityName namespaceName log)
    else if stringsToLower kind = "job" || stringsToLower kind = "cronjob" then
      let log1 := log ++ [Call.GetCronJob namespaceName entityName]
      match executor.kube.GetCronJob log namespaceName entityName with
      | .error err => .ok (("", 0, some err), log1)
      | .ok job => .ok ((job.Name, 1, none), log1)
    else .ok (("", 0, none), log)
  match dispatched with
  | .error p => .error p
  | .ok ((_, targetPods, some _), log) =>
    .ok ((.AutomationFailed, "failed to trigger pod status", targetPods, 0), log)
  | .ok ((objectName, targetPods, none), log) =>
    executor.pollLoop entityName namespaceName kind statusMap budget objectName targetPods 0
      log

/-! ## Execution unit -/

/-- The function `makeAutomationFailedResponse` of `executor.go`. -/
def makeAutomationFailedResponse (automation : PacketAutomation) (msg : String) :
    PacketAutomationFeedbackRequest :=
  { ID := automation.ID
    NamespaceName := automation.NamespaceName
    ControllerKind := automation.ControllerName
    ControllerName := automation.ControllerName
    ContainerName := automation.ContainerName
    Status := .AutomationFailed
    Message := msg }

/-- The method `Executor.handleExecutionError` of `executor.go`; `err` is the text of the error. -/
def Executor.handleExecutionError (_executor : Executor) (automation : PacketAutomation)
    (err : String) : PacketAutomationFeedbackRequest :=
  makeAutomationFailedResponse automation err

/-- The method `Executor.handleExecutionSkipping` of `executor.go`. -/
def Executor.handleExecutionSkipping (_executor : Executor) (aut : PacketAutomation)
    (msg : String) : PacketAutomationFeedbackRequest :=
  makeAutomationFailedResponse aut msg

/-- The map `statusMap` that `execute` builds; a phase without an entry reads as the
empty string. -/
def statusMap (phase : PodPhase) : String :=
  if phase = PodRunning then "pods restarted successfully"
  else if phase = PodFailed then "pods failed to restart"
  else if phase = PodUnknown then "pods status is unknown"
  else ""

/-- The method `Executor.execute` of `executor.go`. It returns the feedback, the text of the error
returned beside it (if any) and the calls made so far. -/
def Executor.execute (executor : Executor) (automation : PacketAutomation) (log : List Call) :
    Except Panic ((PacketAutomationFeedbackRequest × Option String) × List Call) :=
  let found := executor.entitiesFinder.FindContainer log automation.NamespaceName
    automation.ControllerKind automation.ControllerName automation.ContainerName
  let log := log ++ [Call.FindContainer automation.NamespaceName automation.ControllerKind
    automation.ControllerName automation.ContainerName]
  match found with
  | .error err =>
    .ok ((makeAutomationFailedResponse automation ("unable to get container details " ++ err),
      some ("unable to get container details, error: " ++ err)), log)
  | .ok c =>
    match executor.rt.Transcode c with
    | .error err =>
      .ok ((makeAutomationFailedResponse automation
        ("unable to get container details " ++ err),
        some ("unable to get container details, error: " ++ err)), log)
    | .ok container =>
      let originalResources := buildOriginalResourcesFromContainer container
      match buildRecommendedResourcesFromAutomation originalResources automation with
      | .error p => .error p
      | .ok recommendedResources =>
        if executor.dryRun then
          .ok ((executor.handleExecutionSkipping automation "dry run enabled", none), log)
        else
          let applied := executor.kube.SetResources log automation.ControllerKind
            automation.ControllerName automation.NamespaceName recommendedResources
          let log := log ++ [Call.SetResources automation.ControllerKind
            automation.ControllerName automation.NamespaceName recommendedResources]
          match applied with
          | (skipped, some err) =>
            let response :=
              if skipped then executor.handleExecutionSkipping automation err
              else executor.handleExecutionError automation err
            .ok ((response, none), log)
          | (_, none) =>
            match executor.podsStatusHandler automation.ControllerName
                automation.NamespaceName automation.ControllerKind statusMap log with
            | .error p => .error p
            | .ok ((result, msg, targetPodCount, runningPods), log) =>
              -- rollback in case of failed to restart all pods
              let rollback := decide (runningPods < targetPodCount)
              let msg := if rollback then statusMap PodFailed else msg
              let result := if rollback then AutomationStatus.AutomationFailed else result
              -- execute the automation with old values to rollback; what the call
              -- returns is only logged
              let log :=
                if rollback then
                  log ++ [Call.SetResources automation.ControllerKind
                    automation.ControllerName automation.NamespaceName originalResources]
                else log
              .ok (({ ID := automation.ID
                      NamespaceName := automation.NamespaceName
                      ControllerName := automation.ControllerName
                      ControllerKind := automation.ControllerKind
                      ContainerName := automation.ContainerName
                      Status := result
                      Message := msg }, none), log)

/-! ## Intake -/

/-- The method `Executor.submitAutomation` of `executor.go`: the command is sent on the channel when the
buffer has room; a buffer that is full and stays full for the submission timeout gives
the timeout error. -/
def Executor.submitAutomation (executor : Executor) (automation : PacketAutomation) :
    Option String × Executor :=
  if executor.automationsChan.length < automationsBufferLength then
    (none, { executor with automationsChan := executor.automationsChan ++ [automation] })
  else
    (some "timeout (after 10s) waiting to push automation into buffer chan", executor)

/-- What `Listener` returns: the decode error, or the response it encodes. -/
inductive ListenerResult where
  | decodeError (err : String)
  | response (out : PacketAutomationResponse)
  deriving DecidableEq, Repr

/-- The method `Executor.Listener` of `executor.go`, from the result of decoding the payload. The
zero value `proto.PacketAutomationResponse{}` has an empty identifier and no error. -/
def Executor.Listener (executor : Executor) (decoded : Except String PacketAutomation) :
    ListenerResult × Executor :=
  match decoded with
  | .error err => (.decodeError err, executor)
  | .ok automation =>
    if automation.ID ∈ executor.inProgressJobs then
      (.response { ID := "", Error := none }, executor)
    else
      let executor := { executor with inProgressJobs := automation.ID :: executor.inProgressJobs }
      let automation := convertAutomationMemoryFromKiloByteToMegabyte automation
      match executor.submitAutomation automation with
      | (some errMessage, executor) =>
        (.response { ID := automation.ID, Error := some errMessage }, executor)
      | (none, executor) => (.response { ID := "", Error := none }, executor)

/-! ## Vocabulary of the specification -/

/-- Whether a call goes to the cluster mutation collaborator. -/
def Call.isMutation : Call → Bool
  | .SetResources _ _ _ _ => true
  | _ => false

/-- Whether a call is a cluster query (stateful set, daemon set, cron job, replica sets,
pods). -/
def Call.isQuery : Call → Bool
  | .GetStatefulSet _ _ => true
  | .GetDaemonSet _ _ => true
  | .GetCronJob _ _ => true
  | .GetNamespaceReplicaSets _ => true
  | .GetNameSpacePods _ => true
  | _ => false

/-- The calls to the mutation collaborator among `calls`, in order. -/
def mutationCalls (calls : List Call) : List Call :=
  calls.filter Call.isMutation

/-- The cluster queries among `calls`, in order. -/
def clusterQueries (calls : List Call) : List Call :=
  calls.filter Call.isQuery

/-- The pods of a listing whose generated name contains the object name. -/
def matchingPods (objectName : String) (pods : List Pod) : List Pod :=
  pods.filter (fun pod => stringsContains pod.GenerateName objectName)

/-- The matching pods that come before the first matching pod whose phase is neither
Running nor Pending (all of them when there is none). -/
def podsBeforeTerminal (objectName : String) (pods : List Pod) : List Pod :=
  (matchingPods objectName pods).takeWhile
    (fun pod => decide (pod.Phase = PodRunning) || decide (pod.Phase = PodPending))

/-- The number of pods in phase Running in a list of pods. -/
def runningCount (pods : List Pod) : Nat :=
  (pods.filter (fun pod => decide (pod.Phase = PodRunning))).length

/-! ## Sample collaborators, for concrete runs -/

/-- Insertion of one replica into a list ordered by `less`. -/
def insertReplica (less : Replica → Replica → Bool) (r : Replica) : List Replica → List Replica
  | [] => [r]
  | x :: xs => if less x r then x :: insertReplica less r xs else r :: x :: xs

/-- Insertion sort, the behaviour of `sort.Slice` on short slices. -/
def insertionSort (less : Replica → Replica → Bool) : List Replica → List Replica
  | [] => []
  | x :: xs => insertReplica less x (insertionSort less xs)

/-- A runtime whose json round trip returns the container found (the zero container for
a nil pointer) and whose clock admits `budget` poll iterations. -/
def sampleRuntime (budget : Nat) : Runtime :=
  { Transcode := fun c =>
      match c with
      | some container => .ok container
      | none => .ok { Name := "", memoryLimit := 0, memoryRequest := 0, cpuLimit := 0,
                      cpuRequest := 0 }
    sortSlice := insertionSort
    pollBudget := fun _ => budget }

/-- A cluster that answers every call the same way. -/
def sampleKube (applied : Bool × Option String) (statefulset : Except String StatefulSet)
    (pods : Except String (List Pod)) : Kube :=
  { SetResources := fun _ _ _ _ _ => applied
    GetStatefulSet := fun _ _ _ => statefulset
    GetDaemonSet := fun _ _ _ => .error "daemonset not found"
    GetCronJob := fun _ _ _ => .error "cronjob not found"
    GetNamespaceReplicaSets := fun _ _ => (some [], none)
    GetNameSpacePods := fun _ _ => pods }

/-- A container with a CPU request of 100 milli-units and a memory request of 256 MiB. -/
def sampleContainer : Container :=
  { Name := "app", memoryLimit := 0, memoryRequest := 268435456, cpuLimit := 0,
    cpuRequest := 100 }

/-- An executor over the sample collaborators, with an empty buffer. -/
def sampleExecutor (dryRun : Bool) (applied : Bool × Option String)
    (statefulset : Except String StatefulSet) (pods : Except String (List Pod))
    (budget : Nat) : Executor :=
  { kube := sampleKube applied statefulset pods
    entitiesFinder := { FindContainer := fun _ _ _ _ _ => .ok (some sampleContainer) }
    rt := sampleRuntime budget
    dryRun := dryRun
    workersCount := 1
    automationsChan := []
    inProgressJobs := [] }

/-- A command for container `app` of stateful set `web`: CPU limit 200, memory request
2048 KiB. -/
def sampleAutomation : PacketAutomation :=
  { ID := "X", NamespaceName := "default", ControllerName := "web",
    ControllerKind := "StatefulSet", ContainerName := "app",
    ContainerResources :=
      { Requests := some { CPU := none, Memory := some 2048 }
        Limits := some { CPU := some 200, Memory := none } } }

/-- A stateful set `web` declaring three replicas, one of them ready. -/
def sampleStatefulSet : StatefulSet :=
  { Name := "web", SpecReplicas := some 3, StatusReadyReplicas := 1 }

/-- A pod generated for `web` in the given phase. -/
def samplePod (name : String) (phase : PodPhase) : Pod :=
  { Name := name, GenerateName := "web-", Phase := phase }

/-- A full buffer: a thousand waiting commands with pairwise distinct identifiers
`q`, `qq`, `qqq`, and so on. -/
def fullBuffer : List PacketAutomation :=
  (List.range automationsBufferLength).map fun i =>
    { sampleAutomation with ID := String.mk (List.replicate (i + 1) 'q') }

/-- A sample executor whose buffer is full, every waiting command being in progress. -/
def fullExecutor : Executor :=
  { sampleExecutor false (false, none) (.ok sampleStatefulSet) (.ok []) 1 with
    automationsChan := fullBuffer
    inProgressJobs := fullBuffer.map (fun a => a.ID) }

/-! ## Worker pool -/

/-- The kind tags of `proto.PacketKind` the sources use. -/
inductive PacketKind where
  | PacketKindAutomationFeedback
  | PacketKindMetricsStoreV2Request
  deriving DecidableEq, Repr

/-- The type `client.Package` as `executorWorker` fills it; `ExpiryTime` holds the duration
given to `utils.After`, in seconds. -/
structure Package where
  Kind : PacketKind
  ExpiryTime : Nat
  ExpiryCount : Nat
  Priority : Nat
  Retries : Nat
  Data : PacketAutomationFeedbackRequest
  deriving DecidableEq, Repr

/-- The constant `automationsFeedbackExpiryTime` (30 minutes), in seconds. -/
def automationsFeedbackExpiryTime : Nat := 30 * 60
/-- The constant `automationsFeedbackExpiryCount`. -/
def automationsFeedbackExpiryCount : Nat := 0
/-- The constant `automationsFeedbackExpiryPriority`. -/
def automationsFeedbackExpiryPriority : Nat := 10
/-- The constant `automationsFeedbackExpiryRetries`. -/
def automationsFeedbackExpiryRetries : Nat := 5

/-- The function `NewExecutor` of `executor.go`: no command is waiting and none is in progress. -/
def NewExecutor (kube : Kube) (entitiesFinder : EntitiesFinder) (rt : Runtime)
    (workersCount : Nat) (dryRun : Bool) : Executor :=
  { kube := kube
    entitiesFinder := entitiesFinder
    rt := rt
    dryRun := dryRun
    workersCount := workersCount
    inProgressJobs := []
    automationsChan := [] }

/-- One iteration of the loop of `executorWorker`: the oldest command is received from the
channel, `execute` runs, the identifier is deleted from `inProgressJobs` and the feedback
is piped. The result is `none` when the channel is empty (the worker blocks), a panic of
`execute` ends the worker, and otherwise it is the package piped, the executor and the
calls made so far. -/
def Executor.executorWorker (executor : Executor) (log : List Call) :
    Option (Except Panic (Package × Executor × List Call)) :=
  match executor.automationsChan with
  | [] => none
  | automation :: waiting =>
    let executor := { executor with automationsChan := waiting }
    match executor.execute automation log with
    | .error p => some (.error p)
    | .ok ((response, _), log) =>
      let executor :=
        { executor with
          inProgressJobs := executor.inProgressJobs.filter (fun id => id ≠ automation.ID) }
      some (.ok ({ Kind := .PacketKindAutomationFeedback
                   ExpiryTime := automationsFeedbackExpiryTime
                   ExpiryCount := automationsFeedbackExpiryCount
                   Priority := automationsFeedbackExpiryPriority
                   Retries := automationsFeedbackExpiryRetries
                   Data := response }, executor, log))

/-- One step of the executor: an intake by `Listener`, or one iteration of a worker that
ends. The state is the executor and the calls made so far. -/
inductive Step : Executor × List Call → Executor × List Call → Prop where
  | intake (executor : Executor) (log : List Call) (decoded : Except String PacketAutomation) :
      Step (executor, log) ((executor.Listener decoded).2, log)
  | work (executor executor1 : Executor) (log log1 : List Call) (package : Package)
      (h : executor.executorWorker log = some (.ok (package, executor1, log1))) :
      Step (executor, log) (executor1, log1)

/-- The states reached from an initial executor by steps. -/
inductive Reachable (initial : Executor) : Executor × List Call → Prop where
  | start : Reachable initial (initial, [])
  | next (s t : Executor × List Call) (hs : Reachable initial s) (hstep : Step s t) :
      Reachable initial t

/-- The executor whose mutation collaborator answers `response` to the call made after
the calls `history`, and is otherwise unchanged. -/
def Executor.withSetResourcesAt (executor : Executor) (history : List Call)
    (response : Bool × Option String) : Executor :=
  { executor with
    kube :=
      { executor.kube with
        SetResources := fun log kind name namespaceName totalResources =>
          if log = history then response
          else executor.kube.SetResources log kind name namespaceName totalResources } }

/-- The matching pods the scan looks at: those before the first matching pod whose phase
is neither Running nor Pending, and that pod itself. -/
def podsScanned (objectName : String) : List Pod → List Pod
  | [] => []
  | pod :: rest =>
    if stringsContains pod.GenerateName objectName then
      if pod.Phase = PodRunning ∨ pod.Phase = PodPending then
        pod :: podsScanned objectName rest
      else [pod]
    else podsScanned objectName rest

/-- The phase last observed in a scan: the phase of the last pod looked at, Pending when
no pod matches. -/
def lastObservedPhase (objectName : String) (pods : List Pod) : PodPhase :=
  match (podsScanned objectName pods).getLast? with
  | some pod => pod.Phase
  | none => PodPending

/-! ## Metrics gateway -/

/-- The fields of `agent.Metric` that identify a metric; the batching reads none. -/
structure Metric where
  Name : String
  Value : Int
  deriving DecidableEq, Repr

/-- The constant `metricsBatchMaxSize`. -/
def metricsBatchMaxSize : Nat := 1000

/-- The slice expression `metrics[start:end]`, which panics when the bounds are out of
order or beyond the length. -/
def sliceMetrics (metrics : List Metric) (start stop : Nat) : Except Panic (List Metric) :=
  if start ≤ stop ∧ stop ≤ metrics.length then .ok ((metrics.take stop).drop start)
  else .error .indexOutOfRange

/-- The loop of `SendMetrics` from index `i`, with `remaining = noOfBatches - i` iterations
left; it returns the batches given to `sendMetricsBatch`, in order. -/
def sendMetricsLoop (metrics : List Metric) (noOfBatches lastBatchSize : Nat) :
    Nat → Nat → Except Panic (List (List Metric))
  | 0, _ => .ok []
  | remaining + 1, i =>
    let start := i * metricsBatchMaxSize
    let stop :=
      if i = noOfBatches - 1 ∧ lastBatchSize > 0 then start + lastBatchSize
      else start + metricsBatchMaxSize
    match sliceMetrics metrics start stop with
    | .error p => .error p
    | .ok batch =>
      match sendMetricsLoop metrics noOfBatches lastBatchSize remaining (i + 1) with
      | .error p => .error p
      | .ok batches => .ok (batch :: batches)

/-- The method `MagalixGateway.SendMetrics` of `metrics.go`; the result is the list of batches sent.
`math.Ceil(float64(len(metrics))/float64(metricsBatchMaxSize))` is the exact ceiling of
the quotient: for a length below 2^53 the conversion is exact and the rounding error of
the division is below 1/1000, the least distance of a quotient that is not whole to a
whole number. -/
def SendMetrics (metrics : List Metric) : Except Panic (List (List Metric)) :=
  let noOfBatches := (metrics.length + (metricsBatchMaxSize - 1)) / metricsBatchMaxSize
  let lastBatchSize := metrics.length % metricsBatchMaxSize
  sendMetricsLoop metrics noOfBatches lastBatchSize noOfBatches 0

/-! ## More sample collaborators -/

/-- A sample executor whose cluster answers every replica-set listing with `replicasets`
and every pod listing with `pods`. -/
def sampleDeploymentExecutor (replicasets : Option (List ReplicaSet) × Option String)
    (pods : Except String (List Pod)) (budget : Nat) : Executor :=
  { sampleExecutor false (false, none) (.ok sampleStatefulSet) pods budget with
    kube :=
      { sampleKube (false, none) (.ok sampleStatefulSet) pods with
        GetNamespaceReplicaSets := fun _ _ => replicasets } }

/-- The sample command, addressed to deployment `web`. -/
def sampleDeploymentAutomation : PacketAutomation :=
  { sampleAutomation with ControllerKind := "Deployment" }

/-- A replica set of deployment `web`. -/
def sampleReplicaSet (name : String) (replicas ready created : Int) : ReplicaSet :=
  { Name := name, SpecReplicas := some replicas, StatusReplicas := replicas,
    StatusReadyReplicas := ready, CreationTimestamp := created }

/-! ## Theorems -/

/-- Two truncating divisions by 1024 are one truncating division by 1024 * 1024. -/
theorem tdiv_1024_twice (a : Int) : (a.tdiv 1024).tdiv 1024 = a.tdiv 1048576 := by
  rcases le_total 0 a with h | h
  · rw [Int.tdiv_eq_ediv h (by norm_num),
      Int.tdiv_eq_ediv (Int.ediv_nonneg h (by norm_num)) (by norm_num),
      Int.tdiv_eq_ediv h (by norm_num)]
    omega
  · obtain ⟨b, rfl⟩ : ∃ b, a = -b := ⟨-a, by simp⟩
    have hb : 0 ≤ b := by omega
    rw [Int.neg_tdiv, Int.neg_tdiv, Int.neg_tdiv, Int.tdiv_eq_ediv hb (by norm_num),
      Int.tdiv_eq_ediv (Int.ediv_nonneg hb (by norm_num)) (by norm_num),
      Int.tdiv_eq_ediv hb (by norm_num)]
    omega

/-- The merge never panics on an original spec that has a first container with both
groups, and each field of the result is the merged field. -/
theorem buildRecommended_eq (originalResources : TotalResources)
    (automation : PacketAutomation) (c0 : ContainerResourcesRequirements)
    (rest : List ContainerResourcesRequirements) (oreq olim : RequestLimit)
    (hc : originalResources.Containers = c0 :: rest)
    (hr : c0.Requests = some oreq) (hl : c0.Limits = some olim) :
    buildRecommendedResourcesFromAutomation originalResources automation =
      .ok { Containers :=
        [{ Name := c0.Name
           Requests := some
             { CPU := mergedField oreq.CPU automation.ContainerResources.Requests (·.CPU)
               Memory :=
                 mergedField oreq.Memory automation.ContainerResources.Requests (·.Memory) }
           Limits := some
             { CPU := mergedField olim.CPU automation.ContainerResources.Limits (·.CPU)
               Memory :=
                 mergedField olim.Memory automation.ContainerResources.Limits (·.Memory) } }] }
    := by
  unfold buildRecommendedResourcesFromAutomation mergedField
  rw [hc]
  simp only [hr, hl]
  rcases automation.ContainerResources.Requests with _ | r <;>
    rcases automation.ContainerResources.Limits with _ | l <;> rfl

/-- The original spec read from a container always has one container with both groups,
so the merge that follows it returns. -/
theorem buildRecommended_of_original (container : Container) (automation : PacketAutomation) :
    ∃ recommended,
      buildRecommendedResourcesFromAutomation (buildOriginalResourcesFromContainer container)
        automation = .ok recommended :=
  ⟨_, buildRecommended_eq _ automation _ [] _ _ rfl rfl rfl⟩

/-- C1: for every original spec (a first container with its requests and limits groups)
and every automation override, `buildRecommendedResourcesFromAutomation` returns a
single-container spec with the original container name, both groups present, and each of
requests.cpu, requests.memory, limits.cpu, limits.memory equal to the override value when
the override specifies that field and to the original value (possibly absent) otherwise. -/
theorem buildRecommendedResourcesFromAutomation_merges (originalResources : TotalResources)
    (automation : PacketAutomation) (c0 : ContainerResourcesRequirements)
    (rest : List ContainerResourcesRequirements) (oreq olim : RequestLimit)
    (hc : originalResources.Containers = c0 :: rest)
    (hr : c0.Requests = some oreq) (hl : c0.Limits = some olim) :
    ∃ requests limits : RequestLimit,
      buildRecommendedResourcesFromAutomation originalResources automation =
        .ok { Containers :=
          [{ Name := c0.Name, Requests := some requests, Limits := some limits }] } ∧
      requests.CPU = mergedField oreq.CPU automation.ContainerResources.Requests (·.CPU) ∧
      requests.Memory =
        mergedField oreq.Memory automation.ContainerResources.Requests (·.Memory) ∧
      limits.CPU = mergedField olim.CPU automation.ContainerResources.Limits (·.CPU) ∧
      limits.Memory =
        mergedField olim.Memory automation.ContainerResources.Limits (·.Memory) :=
  ⟨_, _, buildRecommended_eq originalResources automation c0 rest oreq olim hc hr hl,
    rfl, rfl, rfl, rfl⟩

/-- C1 at the example of the specification: original {requests.cpu=100,
requests.memory=256} and override {limits.cpu=200} give {requests.cpu=100,
requests.memory=256, limits.cpu=200, limits.memory absent}. -/
theorem buildRecommendedResourcesFromAutomation_merges_witness :
    ∃ requests limits : RequestLimit,
      buildRecommendedResourcesFromAutomation
        { Containers :=
            [{ Name := "app", Requests := some { CPU := some 100, Memory := some 256 },
               Limits := some { CPU := none, Memory := none } }] }
        { sampleAutomation with
          ContainerResources :=
            { Requests := none, Limits := some { CPU := some 200, Memory := none } } } =
        .ok { Containers :=
          [{ Name := "app", Requests := some requests, Limits := some limits }] } ∧
      requests.CPU = some 100 ∧ requests.Memory = some 256 ∧
      limits.CPU = some 200 ∧ limits.Memory = none :=
  buildRecommendedResourcesFromAutomation_merges
    { Containers :=
        [{ Name := "app", Requests := some { CPU := some 100, Memory := some 256 },
           Limits := some { CPU := none, Memory := none } }] }
    { sampleAutomation with
      ContainerResources :=
        { Requests := none, Limits := some { CPU := some 200, Memory := none } } }
    _ [] _ _ rfl rfl rfl

/-! ### Intake -/

/-- C3: for every decoded command whose identifier is already in the in-progress set,
`Listener` returns the generic success response (no identifier, no error) and leaves the
executor, in particular the in-progress set and the buffer, unchanged; and for every
command, a second submission right after the first changes nothing and returns the
generic success response. -/
theorem Listener_duplicate_is_dropped (executor : Executor) (automation : PacketAutomation) :
    (automation.ID ∈ executor.inProgressJobs →
      executor.Listener (.ok automation) =
        (.response { ID := "", Error := none }, executor)) ∧
    (executor.Listener (.ok automation)).2.Listener (.ok automation) =
      (.response { ID := "", Error := none }, (executor.Listener (.ok automation)).2) := by
  have hdup : ∀ e : Executor, automation.ID ∈ e.inProgressJobs →
      e.Listener (.ok automation) = (.response { ID := "", Error := none }, e) := by
    intro e h
    simp [Executor.Listener, h]
  refine ⟨hdup executor, hdup _ ?_⟩
  by_cases h : automation.ID ∈ executor.inProgressJobs
  · rw [hdup executor h]; exact h
  · simp only [Executor.Listener, h, if_false, Executor.submitAutomation]
    split_ifs <;> simp

/-- C3 on a run: the sample command is submitted, and submitted again while waiting. -/
theorem Listener_duplicate_is_dropped_witness :
    ("X" ∈ ((sampleExecutor false (false, none) (.ok sampleStatefulSet) (.ok []) 1).Listener
        (.ok sampleAutomation)).2.inProgressJobs) ∧
    ((sampleExecutor false (false, none) (.ok sampleStatefulSet) (.ok []) 1).Listener
        (.ok sampleAutomation)).2.Listener (.ok sampleAutomation) =
      (.response { ID := "", Error := none },
        ((sampleExecutor false (false, none) (.ok sampleStatefulSet) (.ok []) 1).Listener
          (.ok sampleAutomation)).2) :=
  ⟨by decide,
    (Listener_duplicate_is_dropped
      ((sampleExecutor false (false, none) (.ok sampleStatefulSet) (.ok []) 1).Listener
        (.ok sampleAutomation)).2 sampleAutomation).1 (by decide)⟩

/-- C4, what the code does: for every new command submitted while the buffer is full and
stays full past the submission timeout, `Listener` returns a response carrying the
timeout error and enqueues nothing, but the identifier stays in the in-progress set, so
that a redelivery of the same identifier is dropped with the generic success response. -/
theorem Listener_timeout_keeps_identifier (executor : Executor) (automation : PacketAutomation)
    (hnew : automation.ID ∉ executor.inProgressJobs)
    (hfull : automationsBufferLength ≤ executor.automationsChan.length) :
    (executor.Listener (.ok automation)).1 =
      .response { ID := automation.ID,
                  Error := some "timeout (after 10s) waiting to push automation into buffer chan" } ∧
    (executor.Listener (.ok automation)).2.automationsChan = executor.automationsChan ∧
    automation.ID ∈ (executor.Listener (.ok automation)).2.inProgressJobs ∧
    (executor.Listener (.ok automation)).2.Listener (.ok automation) =
      (.response { ID := "", Error := none }, (executor.Listener (.ok automation)).2) := by
  have hlen : ¬ executor.automationsChan.length < automationsBufferLength := by omega
  have hstep : executor.Listener (.ok automation) =
      (.response { ID := automation.ID,
                   Error := some "timeout (after 10s) waiting to push automation into buffer chan" },
        { executor with inProgressJobs := automation.ID :: executor.inProgressJobs }) := by
    simp [Executor.Listener, hnew, Executor.submitAutomation, hlen,
      convertAutomationMemoryFromKiloByteToMegabyte]
  rw [hstep]
  refine ⟨rfl, rfl, by simp, ?_⟩
  simp [Executor.Listener]

/-- C4 at the failing input: the buffer holds a thousand commands and command `X` is new. -/
theorem Listener_timeout_keeps_identifier_witness :
    (fullExecutor.Listener (.ok sampleAutomation)).1 =
      .response { ID := "X",
                  Error := some "timeout (after 10s) waiting to push automation into buffer chan" } ∧
    (fullExecutor.Listener (.ok sampleAutomation)).2.automationsChan =
      fullExecutor.automationsChan ∧
    "X" ∈ (fullExecutor.Listener (.ok sampleAutomation)).2.inProgressJobs ∧
    (fullExecutor.Listener (.ok sampleAutomation)).2.Listener (.ok sampleAutomation) =
      (.response { ID := "", Error := none }, (fullExecutor.Listener (.ok sampleAutomation)).2) :=
  Listener_timeout_keeps_identifier fullExecutor sampleAutomation
    (by
      simp only [fullExecutor, fullBuffer, sampleAutomation, List.map_map, List.mem_map,
        List.mem_range, Function.comp, not_exists, not_and]
      intro x _ h
      have hd := congrArg String.data h
      simp [List.replicate_succ] at hd)
    (by simp [fullExecutor, fullBuffer])

/-! ### Unit conversion and original spec -/

/-- C7: for every command, `convertAutomationMemoryFromKiloByteToMegabyte` replaces each
present memory override by its quotient by 1024 and leaves the CPU overrides, the absent
fields, the identifier and the target coordinates unchanged; `Listener` enqueues the
converted command, and the merge of the converted command uses the converted value. -/
theorem convertAutomationMemoryFromKiloByteToMegabyte_spec (automation : PacketAutomation) :
    (convertAutomationMemoryFromKiloByteToMegabyte automation).ID = automation.ID ∧
    (convertAutomationMemoryFromKiloByteToMegabyte automation).NamespaceName =
      automation.NamespaceName ∧
    (convertAutomationMemoryFromKiloByteToMegabyte automation).ControllerName =
      automation.ControllerName ∧
    (convertAutomationMemoryFromKiloByteToMegabyte automation).ControllerKind =
      automation.ControllerKind ∧
    (convertAutomationMemoryFromKiloByteToMegabyte automation).ContainerName =
      automation.ContainerName ∧
    (convertAutomationMemoryFromKiloByteToMegabyte automation).ContainerResources.Requests =
      automation.ContainerResources.Requests.map
        (fun r => { CPU := r.CPU, Memory := r.Memory.map (fun m => m.tdiv 1024) }) ∧
    (convertAutomationMemoryFromKiloByteToMegabyte automation).ContainerResources.Limits =
      automation.ContainerResources.Limits.map
        (fun l => { CPU := l.CPU, Memory := l.Memory.map (fun m => m.tdiv 1024) }) ∧
    (∀ executor : Executor, automation.ID ∉ executor.inProgressJobs →
      executor.automationsChan.length < automationsBufferLength →
      (executor.Listener (.ok automation)).2.automationsChan =
        executor.automationsChan ++ [convertAutomationMemoryFromKiloByteToMegabyte automation]) ∧
    (∀ (container : Container) (r : RequestLimit) (m : Int),
      automation.ContainerResources.Requests = some r → r.Memory = some m →
      ∃ requests limits : RequestLimit,
        buildRecommendedResourcesFromAutomation (buildOriginalResourcesFromContainer container)
          (convertAutomationMemoryFromKiloByteToMegabyte automation) =
          .ok { Containers :=
            [{ Name := container.Name, Requests := some requests, Limits := some limits }] } ∧
        requests.Memory = some (m.tdiv 1024)) ∧
    (∀ (container : Container) (l : RequestLimit) (m : Int),
      automation.ContainerResources.Limits = some l → l.Memory = some m →
      ∃ requests limits : RequestLimit,
        buildRecommendedResourcesFromAutomation (buildOriginalResourcesFromContainer container)
          (convertAutomationMemoryFromKiloByteToMegabyte automation) =
          .ok { Containers :=
            [{ Name := container.Name, Requests := some requests, Limits := some limits }] } ∧
        limits.Memory = some (m.tdiv 1024)) := by
  have hreq : (convertAutomationMemoryFromKiloByteToMegabyte automation).ContainerResources.Requests
      = automation.ContainerResources.Requests.map
        (fun r => { CPU := r.CPU, Memory := r.Memory.map (fun m => m.tdiv 1024) }) := by
    simp only [convertAutomationMemoryFromKiloByteToMegabyte]
    rcases automation.ContainerResources.Requests with _ | ⟨cpu, _ | m⟩ <;> rfl
  have hlim : (convertAutomationMemoryFromKiloByteToMegabyte automation).ContainerResources.Limits
      = automation.ContainerResources.Limits.map
        (fun l => { CPU := l.CPU, Memory := l.Memory.map (fun m => m.tdiv 1024) }) := by
    simp only [convertAutomationMemoryFromKiloByteToMegabyte]
    rcases automation.ContainerResources.Limits with _ | ⟨cpu, _ | m⟩ <;> rfl
  refine ⟨rfl, rfl, rfl, rfl, rfl, hreq, hlim, ?_, ?_, ?_⟩
  · intro executor hnew hroom
    simp [Executor.Listener, hnew, Executor.submitAutomation, hroom]
  · intro container r m hr hm
    refine ⟨_, _, buildRecommended_eq _ _ _ [] _ _ rfl rfl rfl, ?_⟩
    simp [hreq, hr, hm, mergedField]
  · intro container l m hl hm
    refine ⟨_, _, buildRecommended_eq _ _ _ [] _ _ rfl rfl rfl, ?_⟩
    simp [hlim, hl, hm, mergedField]

/-- C7 at the example of the specification: a memory request of 2048 becomes 2, the
converted command is the one enqueued, and the merge gives requests.memory = 2. -/
theorem convertAutomationMemoryFromKiloByteToMegabyte_spec_witness :
    (convertAutomationMemoryFromKiloByteToMegabyte sampleAutomation).ContainerResources.Requests
      = some { CPU := none, Memory := some 2 } ∧
    ((sampleExecutor false (false, none) (.ok sampleStatefulSet) (.ok []) 1).Listener
        (.ok sampleAutomation)).2.automationsChan =
      [convertAutomationMemoryFromKiloByteToMegabyte sampleAutomation] ∧
    ∃ requests limits : RequestLimit,
      buildRecommendedResourcesFromAutomation (buildOriginalResourcesFromContainer sampleContainer)
        (convertAutomationMemoryFromKiloByteToMegabyte sampleAutomation) =
        .ok { Containers :=
          [{ Name := "app", Requests := some requests, Limits := some limits }] } ∧
      requests.Memory = some 2 :=
  ⟨(convertAutomationMemoryFromKiloByteToMegabyte_spec sampleAutomation).2.2.2.2.2.1,
    (convertAutomationMemoryFromKiloByteToMegabyte_spec sampleAutomation).2.2.2.2.2.2.2.1
      (sampleExecutor false (false, none) (.ok sampleStatefulSet) (.ok []) 1)
      (by decide) (by decide),
    (convertAutomationMemoryFromKiloByteToMegabyte_spec sampleAutomation).2.2.2.2.2.2.2.2.1
      sampleContainer { CPU := none, Memory := some 2048 } 2048 rfl rfl⟩

/-- C8, as the code has it: for every container read from the cluster, each of the four
fields is absent exactly when the value read for it is zero; a present CPU field equals
the milli-unit value read, hence is not zero; a present memory field equals the raw byte
value divided by 1024 * 1024 with integer division. -/
theorem buildOriginalResourcesFromContainer_spec (container : Container) :
    ∃ requests limits : RequestLimit,
      buildOriginalResourcesFromContainer container =
        { Containers :=
          [{ Name := container.Name, Requests := some requests, Limits := some limits }] } ∧
      (requests.CPU = none ↔ container.cpuRequest = 0) ∧
      (requests.Memory = none ↔ container.memoryRequest = 0) ∧
      (limits.CPU = none ↔ container.cpuLimit = 0) ∧
      (limits.Memory = none ↔ container.memoryLimit = 0) ∧
      (∀ v, requests.CPU = some v → v = container.cpuRequest ∧ v ≠ 0) ∧
      (∀ v, limits.CPU = some v → v = container.cpuLimit ∧ v ≠ 0) ∧
      (∀ v, requests.Memory = some v → v = container.memoryRequest.tdiv (1024 * 1024)) ∧
      (∀ v, limits.Memory = some v → v = container.memoryLimit.tdiv (1024 * 1024)) := by
  refine ⟨_, _, rfl, ?_, ?_, ?_, ?_, ?_, ?_, ?_, ?_⟩
  · by_cases h : container.cpuRequest = 0 <;> simp [h]
  · by_cases h : container.memoryRequest = 0 <;> simp [h]
  · by_cases h : container.cpuLimit = 0 <;> simp [h]
  · by_cases h : container.memoryLimit = 0 <;> simp [h]
  · intro v hv
    by_cases h : container.cpuRequest = 0
    · simp [h] at hv
    · simp only [ne_eq, h, not_false_eq_true, if_true, Option.some.injEq] at hv
      exact ⟨hv.symm, hv ▸ h⟩
  · intro v hv
    by_cases h : container.cpuLimit = 0
    · simp [h] at hv
    · simp only [ne_eq, h, not_false_eq_true, if_true, Option.some.injEq] at hv
      exact ⟨hv.symm, hv ▸ h⟩
  · intro v hv
    by_cases h : container.memoryRequest = 0
    · simp [h] at hv
    · simp only [ne_eq, h, not_false_eq_true, if_true, Option.some.injEq] at hv
      rw [← hv, tdiv_1024_twice]; rfl
  · intro v hv
    by_cases h : container.memoryLimit = 0
    · simp [h] at hv
    · simp only [ne_eq, h, not_false_eq_true, if_true, Option.some.injEq] at hv
      rw [← hv, tdiv_1024_twice]; rfl

/-- C8 on the sample container: CPU request 100 and memory request 268435456 bytes are
read as 100 milli-units and 256 MiB, and both limits are absent. -/
theorem buildOriginalResourcesFromContainer_spec_witness :
    buildOriginalResourcesFromContainer sampleContainer =
      { Containers :=
        [{ Name := "app", Requests := some { CPU := some 100, Memory := some 256 },
           Limits := some { CPU := none, Memory := none } }] } ∧
    (100 : Int) = sampleContainer.cpuRequest ∧ (100 : Int) ≠ 0 ∧
    (256 : Int) = sampleContainer.memoryRequest.tdiv (1024 * 1024) := by
  obtain ⟨requests, limits, heq, -, -, -, -, hcpu, -, hmem, -⟩ :=
    buildOriginalResourcesFromContainer_spec sampleContainer
  have hval : buildOriginalResourcesFromContainer sampleContainer =
      { Containers :=
        [{ Name := "app", Requests := some { CPU := some 100, Memory := some 256 },
           Limits := some { CPU := none, Memory := none } }] } := by decide
  rw [hval] at heq
  simp only [TotalResources.mk.injEq, List.cons.injEq, and_true,
    ContainerResourcesRequirements.mk.injEq, Option.some.injEq] at heq
  obtain ⟨-, hreq, -⟩ := heq
  subst hreq
  exact ⟨hval, (hcpu 100 rfl).1, (hcpu 100 rfl).2, hmem 256 rfl⟩

/-- C8, counterexample: a container whose memory limit reads 524288 bytes (512 KiB, not
zero) gets an original spec whose memory limit is present with value zero. -/
theorem buildOriginalResourcesFromContainer_present_zero :
    (524288 : Int) ≠ 0 ∧
    buildOriginalResourcesFromContainer
        { Name := "app", memoryLimit := 524288, memoryRequest := 0, cpuLimit := 0,
          cpuRequest := 0 } =
      { Containers :=
        [{ Name := "app", Requests := some { CPU := none, Memory := none },
           Limits := some { CPU := none, Memory := some 0 } }] } := by
  decide

/-! ### Verifier lemmas -/

theorem wrapInt32_of_range (x : Int) (h0 : -2147483648 ≤ x) (h1 : x < 2147483648) :
    wrapInt32 x = x := by
  unfold wrapInt32; omega

theorem scanPods_running (objectName : String) :
    ∀ (pods : List Pod) (status : PodPhase) (r : Int), 0 ≤ r →
      r + (runningCount (podsBeforeTerminal objectName pods) : Int) < 2147483648 →
      (scanPods objectName pods status r).2 =
        r + (runningCount (podsBeforeTerminal objectName pods) : Int) := by
  intro pods
  induction pods with
  | nil => intro status r _ _; simp [scanPods, podsBeforeTerminal, matchingPods, runningCount]
  | cons pod rest ih =>
    intro status r h0 hlt
    by_cases hm : stringsContains pod.GenerateName objectName = true
    · by_cases hr : pod.Phase = PodRunning
      · have hc : runningCount (podsBeforeTerminal objectName (pod :: rest)) =
            runningCount (podsBeforeTerminal objectName rest) + 1 := by
          simp [podsBeforeTerminal, matchingPods, runningCount, hm, hr, List.takeWhile_cons]
        rw [hc] at hlt ⊢
        push_cast at hlt ⊢
        have hw : wrapInt32 (r + 1) = r + 1 := wrapInt32_of_range _ (by omega) (by omega)
        simp only [scanPods, hm, hr, if_true, hw]
        rw [ih _ _ (by omega) (by omega)]
        ring
      · by_cases hp : pod.Phase = PodPending
        · have hc : runningCount (podsBeforeTerminal objectName (pod :: rest)) =
              runningCount (podsBeforeTerminal objectName rest) := by
            have hne : ¬ (PodPending = PodRunning) := by decide
            simp [podsBeforeTerminal, matchingPods, runningCount, hm, hp, hne,
              List.takeWhile_cons, List.filter_cons]
          rw [hc] at hlt ⊢
          simp only [scanPods, hm, hr, hp, if_true, if_false, ne_eq, not_true_eq_false]
          exact ih _ _ h0 hlt
        · have hc : runningCount (podsBeforeTerminal objectName (pod :: rest)) = 0 := by
            simp [podsBeforeTerminal, matchingPods, runningCount, hm, hr, hp,
              List.takeWhile_cons]
          rw [hc]
          simp [scanPods, hm, hr, hp]
    · have hc : podsBeforeTerminal objectName (pod :: rest) =
          podsBeforeTerminal objectName rest := by
        simp [podsBeforeTerminal, matchingPods, hm]
      rw [hc] at hlt ⊢
      simp only [scanPods, hm, if_false, Bool.false_eq_true]
      exact ih _ _ h0 hlt

/-- The calls `deploymentsHandler` makes: one replica-set listing. -/
theorem deploymentsHandler_log (executor : Executor) (entityName namespaceName : String)
    (log log1 : List Call) (r : String × Int × Option String)
    (h : executor.deploymentsHandler entityName namespaceName log = .ok (r, log1)) :
    log1 = log ++ [Call.GetNamespaceReplicaSets namespaceName] := by
  unfold Executor.deploymentsHandler at h
  simp only at h
  split at h
  · cases h
  · split at h
    · cases h
    · split at h
      · cases h
      · simp only [Except.ok.injEq, Prod.mk.injEq] at h
        exact h.2.symm

/-- The calls `statefulsetsHandler` makes: one fetch of the stateful set. -/
theorem statefulsetsHandler_log (executor : Executor) (entityName namespaceName : String)
    (log log1 : List Call) (r : String × Int × Option String)
    (h : executor.statefulsetsHandler entityName namespaceName log = .ok (r, log1)) :
    log1 = log ++ [Call.GetStatefulSet namespaceName entityName] := by
  unfold Executor.statefulsetsHandler at h
  simp only at h
  split at h
  · simp only [Except.ok.injEq, Prod.mk.injEq] at h
    exact h.2.symm
  · split at h
    · split at h
      · cases h
      · simp only [Except.ok.injEq, Prod.mk.injEq] at h
        exact h.2.symm
    · simp only [Except.ok.injEq, Prod.mk.injEq] at h
      exact h.2.symm

/-- The re-resolution at the head of a poll iteration only makes cluster queries. -/
theorem resolved_calls (executor : Executor) (entityName namespaceName kind : String)
    (objectName : String) (targetPods : Int) (log log1 : List Call)
    (r : String × Int × Option String)
    (h : (if stringsToLower kind = "deployment" then
            executor.deploymentsHandler entityName namespaceName log
          else .ok ((objectName, targetPods, none), log)) = .ok (r, log1)) :
    ∃ calls, log1 = log ++ calls ∧ ∀ call ∈ calls, call.isQuery = true := by
  by_cases hk : stringsToLower kind = "deployment"
  · simp only [hk, if_true] at h
    refine ⟨[Call.GetNamespaceReplicaSets namespaceName],
      deploymentsHandler_log _ _ _ _ _ _ h, ?_⟩
    intro call hc
    simp only [List.mem_singleton] at hc; subst hc; rfl
  · simp only [hk, if_false, Except.ok.injEq, Prod.mk.injEq] at h
    exact ⟨[], by simp [h.2], by simp⟩

/-- The polling loop only makes cluster queries, and a `Failed` result carries one of the
two fixed messages of the verifier. -/
theorem pollLoop_calls (executor : Executor) (entityName namespaceName kind : String)
    (sm : PodPhase → String) :
    ∀ (budget : Nat) (objectName : String) (targetPods runningPods : Int) (log log1 : List Call)
      (res : VerifierResult),
      executor.pollLoop entityName namespaceName kind sm budget objectName targetPods
        runningPods log = .ok (res, log1) →
      (∃ calls, log1 = log ++ calls ∧ ∀ call ∈ calls, call.isQuery = true) ∧
      (res.1 = .AutomationFailed →
        res.2.1 = "failed to trigger pod status" ∨
        res.2.1 = "pods restarting exceeded timout (15 min)") := by
  intro budget
  induction budget with
  | zero =>
    intro objectName targetPods runningPods log log1 res h
    simp only [Executor.pollLoop, Except.ok.injEq, Prod.mk.injEq] at h
    obtain ⟨rfl, rfl⟩ := h
    exact ⟨⟨[], by simp, by simp⟩, fun _ => Or.inr rfl⟩
  | succ budget ih =>
    intro objectName targetPods runningPods log log1 res h
    simp only [Executor.pollLoop] at h
    split at h
    · cases h
    · rename_i heq
      simp only [Except.ok.injEq, Prod.mk.injEq] at h
      obtain ⟨rfl, rfl⟩ := h
      exact ⟨resolved_calls _ _ _ _ _ _ _ _ _ heq, fun _ => Or.inl rfl⟩
    · rename_i o2 t2 log2 heq
      obtain ⟨calls, hcalls, hq⟩ := resolved_calls _ _ _ _ _ _ _ _ _ heq
      have hq1 : ∃ calls1, log2 ++ [Call.GetNameSpacePods namespaceName] = log ++ calls1 ∧
          ∀ call ∈ calls1, call.isQuery = true := by
        refine ⟨calls ++ [Call.GetNameSpacePods namespaceName], by simp [hcalls], ?_⟩
        intro call hc
        rcases List.mem_append.1 hc with hc | hc
        · exact hq call hc
        · simp only [List.mem_singleton] at hc; subst hc; rfl
      split at h
      · simp only [Except.ok.injEq, Prod.mk.injEq] at h
        obtain ⟨rfl, rfl⟩ := h
        exact ⟨hq1, fun _ => Or.inl rfl⟩
      · split at h
        · simp only [Except.ok.injEq, Prod.mk.injEq] at h
          obtain ⟨rfl, rfl⟩ := h
          exact ⟨hq1, fun hf => by cases hf⟩
        · obtain ⟨⟨calls2, hc2, hq2⟩, hmsg⟩ := ih _ _ _ _ _ _ h
          obtain ⟨calls1, hc1, hq1⟩ := hq1
          refine ⟨⟨calls1 ++ calls2, by rw [hc2, hc1, List.append_assoc], ?_⟩, hmsg⟩
          intro call hc
          rcases List.mem_append.1 hc with hc | hc
          · exact hq1 call hc
          · exact hq2 call hc

/-- The upfront resolution of `podsStatusHandler` only makes cluster queries. -/
theorem dispatched_calls (executor : Executor) (entityName namespaceName kind : String)
    (log log1 : List Call) (r : String × Int × Option String)
    (h : (if stringsToLower kind = "statefulset" then
            executor.statefulsetsHandler entityName namespaceName log
          else if stringsToLower kind = "daemonset" then
            .ok (executor.daemonsetsHandler entityName namespaceName log)
          else if (stringsToLower kind = "job" || stringsToLower kind = "cronjob") = true then
            match executor.kube.GetCronJob log namespaceName entityName with
            | .error err =>
              .ok (("", 0, some err), log ++ [Call.GetCronJob namespaceName entityName])
            | .ok job =>
              .ok ((job.Name, 1, none), log ++ [Call.GetCronJob namespaceName entityName])
          else .ok (("", 0, none), log)) = .ok (r, log1)) :
    ∃ calls, log1 = log ++ calls ∧ ∀ call ∈ calls, call.isQuery = true := by
  have one : ∀ call : Call, call.isQuery = true → log1 = log ++ [call] →
      ∃ calls, log1 = log ++ calls ∧ ∀ call ∈ calls, call.isQuery = true := by
    intro call hq hl
    refine ⟨[call], hl, ?_⟩
    intro c hc
    simp only [List.mem_singleton] at hc; subst hc; exact hq
  split_ifs at h
  · exact one (Call.GetStatefulSet namespaceName entityName) rfl
      (statefulsetsHandler_log _ _ _ _ _ _ h)
  · refine one (Call.GetDaemonSet namespaceName entityName) rfl ?_
    simp only [Executor.daemonsetsHandler, Except.ok.injEq] at h
    split at h
    · simp only [Prod.mk.injEq] at h; exact h.2.symm
    · split at h <;> · simp only [Prod.mk.injEq] at h; exact h.2.symm
  · refine one (Call.GetCronJob namespaceName entityName) rfl ?_
    split at h <;> · simp only [Except.ok.injEq, Prod.mk.injEq] at h; exact h.2.symm
  · simp only [Except.ok.injEq, Prod.mk.injEq] at h
    exact ⟨[], by simp [h.2], by simp⟩

/-- The verifier only makes cluster queries, and when it returns `Failed` its message is
one of its two fixed messages. -/
theorem podsStatusHandler_calls (executor : Executor) (entityName namespaceName kind : String)
    (sm : PodPhase → String) (log log1 : List Call) (res : VerifierResult)
    (h : executor.podsStatusHandler entityName namespaceName kind sm log = .ok (res, log1)) :
    (∃ calls, log1 = log ++ calls ∧ ∀ call ∈ calls, call.isQuery = true) ∧
    (res.1 = .AutomationFailed →
      res.2.1 = "failed to trigger pod status" ∨
      res.2.1 = "pods restarting exceeded timout (15 min)") := by
  simp only [Executor.podsStatusHandler] at h
  split at h
  · cases h
  · rename_i heq
    simp only [Except.ok.injEq, Prod.mk.injEq] at h
    obtain ⟨rfl, rfl⟩ := h
    exact ⟨dispatched_calls _ _ _ _ _ _ _ heq, fun _ => Or.inl rfl⟩
  · rename_i heq
    obtain ⟨calls, hcalls, hq⟩ := dispatched_calls _ _ _ _ _ _ _ heq
    obtain ⟨⟨calls2, hc2, hq2⟩, hmsg⟩ := pollLoop_calls _ _ _ _ _ _ _ _ _ _ _ _ h
    refine ⟨⟨calls ++ calls2, by rw [hc2, hcalls, List.append_assoc], ?_⟩, hmsg⟩
    intro call hc
    rcases List.mem_append.1 hc with hc | hc
    · exact hq call hc
    · exact hq2 call hc

/-- A list of cluster queries holds no call to the mutation collaborator. -/
theorem mutationCalls_of_queries (calls : List Call)
    (h : ∀ call ∈ calls, call.isQuery = true) : mutationCalls calls = [] := by
  unfold mutationCalls
  rw [List.filter_eq_nil_iff]
  intro call hc
  have := h call hc
  cases call <;> simp_all [Call.isQuery, Call.isMutation]

/-! ### Execution unit -/

/-- C10: for every command whose container is found, in dry-run mode `execute` returns
a feedback with status `Failed` and message "dry run enabled", and the only call it makes
is the discovery call: no call to the mutation collaborator and no cluster query. -/
theorem execute_dryRun (executor : Executor) (automation : PacketAutomation) (log : List Call)
    (c : Option Container) (container : Container)
    (hdry : executor.dryRun = true)
    (hfind : executor.entitiesFinder.FindContainer log automation.NamespaceName
      automation.ControllerKind automation.ControllerName automation.ContainerName = .ok c)
    (htrans : executor.rt.Transcode c = .ok container) :
    ∃ feedback calls,
      executor.execute automation log = .ok ((feedback, none), log ++ calls) ∧
      feedback.Status = .AutomationFailed ∧ feedback.Message = "dry run enabled" ∧
      calls = [Call.FindContainer automation.NamespaceName automation.ControllerKind
        automation.ControllerName automation.ContainerName] ∧
      mutationCalls calls = [] ∧ clusterQueries calls = [] := by
  obtain ⟨recommended, hrec⟩ := buildRecommended_of_original container automation
  refine ⟨makeAutomationFailedResponse automation "dry run enabled", _, ?_, rfl, rfl, rfl, rfl,
    rfl⟩
  simp only [Executor.execute, hfind, htrans, hrec, hdry, if_true,
    Executor.handleExecutionSkipping]

/-- C10 on a run: the sample executor in dry-run mode on the sample command. -/
theorem execute_dryRun_witness :
    ∃ feedback calls,
      (sampleExecutor true (false, none) (.ok sampleStatefulSet) (.ok []) 1).execute
        sampleAutomation [] = .ok ((feedback, none), [] ++ calls) ∧
      feedback.Status = .AutomationFailed ∧ feedback.Message = "dry run enabled" ∧
      calls = [Call.FindContainer "default" "StatefulSet" "web" "app"] ∧
      mutationCalls calls = [] ∧ clusterQueries calls = [] :=
  execute_dryRun (sampleExecutor true (false, none) (.ok sampleStatefulSet) (.ok []) 1)
    sampleAutomation [] (some sampleContainer) sampleContainer rfl rfl rfl

/-- C5, what the code does: every feedback built by `makeAutomationFailedResponse` carries
the controller name in its controller-kind field; in dry-run mode the sample command,
of kind `StatefulSet` and name `web`, gets a feedback whose controller kind is `web`. -/
theorem execute_feedback_controllerKind :
    (∀ (automation : PacketAutomation) (msg : String),
      (makeAutomationFailedResponse automation msg).ControllerKind =
        automation.ControllerName) ∧
    sampleAutomation.ControllerKind = "StatefulSet" ∧
    (sampleExecutor true (false, none) (.ok sampleStatefulSet) (.ok []) 1).execute
        sampleAutomation [] =
      .ok (({ ID := "X", NamespaceName := "default", ControllerName := "web",
              ControllerKind := "web", ContainerName := "app",
              Status := .AutomationFailed, Message := "dry run enabled" }, none),
        [Call.FindContainer "default" "StatefulSet" "web" "app"]) :=
  ⟨fun _ _ => rfl, rfl, rfl⟩

/-- The paths of `execute` on which the mutation collaborator returns an error: for every
command outside dry-run mode, whether the change is flagged as skipped or not, `execute`
returns a feedback with status `Failed` whose message is the text of that error, and makes
no call after the mutation call: no cluster query and no second mutation call. -/
theorem execute_apply_error (executor : Executor) (automation : PacketAutomation)
    (log : List Call) (c : Option Container) (container : Container)
    (recommended : TotalResources) (skipped : Bool) (err : String)
    (hdry : executor.dryRun = false)
    (hfind : executor.entitiesFinder.FindContainer log automation.NamespaceName
      automation.ControllerKind automation.ControllerName automation.ContainerName = .ok c)
    (htrans : executor.rt.Transcode c = .ok container)
    (hrec : buildRecommendedResourcesFromAutomation
      (buildOriginalResourcesFromContainer container) automation = .ok recommended)
    (happly : executor.kube.SetResources
      (log ++ [Call.FindContainer automation.NamespaceName automation.ControllerKind
        automation.ControllerName automation.ContainerName])
      automation.ControllerKind automation.ControllerName automation.NamespaceName
      recommended = (skipped, some err)) :
    ∃ feedback calls,
      executor.execute automation log = .ok ((feedback, none), log ++ calls) ∧
      feedback.Status = .AutomationFailed ∧ feedback.Message = err ∧
      clusterQueries calls = [] ∧
      mutationCalls calls = [Call.SetResources automation.ControllerKind
        automation.ControllerName automation.NamespaceName recommended] := by
  refine ⟨makeAutomationFailedResponse automation err,
    [Call.FindContainer automation.NamespaceName automation.ControllerKind
        automation.ControllerName automation.ContainerName,
      Call.SetResources automation.ControllerKind automation.ControllerName
        automation.NamespaceName recommended], ?_, rfl, rfl, rfl, rfl⟩
  simp only [Executor.execute, hfind, htrans, hrec, hdry, happly,
    Executor.handleExecutionSkipping, Executor.handleExecutionError, ite_self,
    List.append_assoc, List.singleton_append, Bool.false_eq_true, if_false]

/-- A run on which the mutation collaborator reports the change as skipped, with an
error: the feedback is the skip feedback and nothing is verified. -/
theorem execute_apply_error_witness :
    ∃ feedback calls,
      (sampleExecutor false (true, some "the object has been modified")
        (.ok sampleStatefulSet) (.ok []) 1).execute sampleAutomation [] =
        .ok ((feedback, none), [] ++ calls) ∧
      feedback.Status = .AutomationFailed ∧
      feedback.Message = "the object has been modified" ∧
      clusterQueries calls = [] ∧
      mutationCalls calls = [Call.SetResources "StatefulSet" "web" "default"
        { Containers :=
            [{ Name := "app", Requests := some { CPU := some 100, Memory := some 2048 },
               Limits := some { CPU := some 200, Memory := none } }] }] :=
  execute_apply_error
    (sampleExecutor false (true, some "the object has been modified")
      (.ok sampleStatefulSet) (.ok []) 1)
    sampleAutomation [] (some sampleContainer) sampleContainer _ true
    "the object has been modified" rfl rfl rfl rfl rfl

/-- C2: for every command whose forward apply succeeded and whose verification returned,
`execute` calls the mutation collaborator a second time, with the original spec, if and
only if the running count returned by the verifier is below the target count it returned;
in that case the feedback has status `Failed` and message "pods failed to restart"
whatever the verifier returned, and otherwise it has the status and message of the
verifier, which are never that pair. -/
theorem execute_rollback_iff_shortfall (executor : Executor) (automation : PacketAutomation)
    (log log2 : List Call) (c : Option Container) (container : Container)
    (recommended : TotalResources) (skipped : Bool)
    (result : AutomationStatus) (msg : String) (targetPodCount runningPods : Int)
    (hdry : executor.dryRun = false)
    (hfind : executor.entitiesFinder.FindContainer log automation.NamespaceName
      automation.ControllerKind automation.ControllerName automation.ContainerName = .ok c)
    (htrans : executor.rt.Transcode c = .ok container)
    (hrec : buildRecommendedResourcesFromAutomation
      (buildOriginalResourcesFromContainer container) automation = .ok recommended)
    (happly : executor.kube.SetResources
      (log ++ [Call.FindContainer automation.NamespaceName automation.ControllerKind
        automation.ControllerName automation.ContainerName])
      automation.ControllerKind automation.ControllerName automation.NamespaceName
      recommended = (skipped, none))
    (hverify : executor.podsStatusHandler automation.ControllerName automation.NamespaceName
      automation.ControllerKind statusMap
      (log ++ [Call.FindContainer automation.NamespaceName automation.ControllerKind
          automation.ControllerName automation.ContainerName] ++
        [Call.SetResources automation.ControllerKind automation.ControllerName
          automation.NamespaceName recommended]) =
      .ok ((result, msg, targetPodCount, runningPods), log2)) :
    ∃ feedback calls,
      executor.execute automation log = .ok ((feedback, none), log ++ calls) ∧
      (runningPods < targetPodCount →
        mutationCalls calls =
          [Call.SetResources automation.ControllerKind automation.ControllerName
            automation.NamespaceName recommended,
           Call.SetResources automation.ControllerKind automation.ControllerName
            automation.NamespaceName (buildOriginalResourcesFromContainer container)] ∧
        calls.getLast? =
          some (Call.SetResources automation.ControllerKind automation.ControllerName
            automation.NamespaceName (buildOriginalResourcesFromContainer container)) ∧
        feedback.Status = .AutomationFailed ∧ feedback.Message = "pods failed to restart") ∧
      (¬ runningPods < targetPodCount →
        mutationCalls calls =
          [Call.SetResources automation.ControllerKind automation.ControllerName
            automation.NamespaceName recommended] ∧
        feedback.Status = result ∧ feedback.Message = msg) ∧
      ((mutationCalls calls).length = 2 ↔ runningPods < targetPodCount) ∧
      ((feedback.Status = .AutomationFailed ∧ feedback.Message = "pods failed to restart") ↔
        runningPods < targetPodCount) := by
  obtain ⟨⟨queries, hlog2, hq⟩, hmsg⟩ := podsStatusHandler_calls _ _ _ _ _ _ _ _ hverify
  have hmq : mutationCalls queries = [] := mutationCalls_of_queries _ hq
  have hmut : ∀ tail : List Call,
      mutationCalls
        ([Call.FindContainer automation.NamespaceName automation.ControllerKind
            automation.ControllerName automation.ContainerName,
          Call.SetResources automation.ControllerKind automation.ControllerName
            automation.NamespaceName recommended] ++ queries ++ tail) =
        Call.SetResources automation.ControllerKind automation.ControllerName
            automation.NamespaceName recommended :: mutationCalls tail := by
    intro tail
    unfold mutationCalls at hmq ⊢
    simp [List.filter_append, hmq, List.filter_cons, Call.isMutation]
  have hsm : statusMap PodFailed = "pods failed to restart" := by decide
  simp only [List.append_assoc, List.singleton_append, List.cons_append,
    List.nil_append] at hverify hlog2
  by_cases hlt : runningPods < targetPodCount
  · refine ⟨{ ID := automation.ID, NamespaceName := automation.NamespaceName,
              ControllerName := automation.ControllerName,
              ControllerKind := automation.ControllerKind,
              ContainerName := automation.ContainerName, Status := .AutomationFailed,
              Message := "pods failed to restart" },
        [Call.FindContainer automation.NamespaceName automation.ControllerKind
            automation.ControllerName automation.ContainerName,
          Call.SetResources automation.ControllerKind automation.ControllerName
            automation.NamespaceName recommended] ++ queries ++
          [Call.SetResources automation.ControllerKind automation.ControllerName
            automation.NamespaceName (buildOriginalResourcesFromContainer container)], ?_, ?_⟩
    · simp only [Executor.execute, hfind, htrans, hrec, hdry, happly, hverify, hlt,
        Bool.false_eq_true, if_false, decide_True, if_true, hlog2, List.append_assoc,
        List.singleton_append, List.cons_append, List.nil_append, hsm]
    · have h2 := hmut [Call.SetResources automation.ControllerKind automation.ControllerName
            automation.NamespaceName (buildOriginalResourcesFromContainer container)]
      have hm : mutationCalls [Call.SetResources automation.ControllerKind
          automation.ControllerName automation.NamespaceName
          (buildOriginalResourcesFromContainer container)] =
          [Call.SetResources automation.ControllerKind automation.ControllerName
            automation.NamespaceName (buildOriginalResourcesFromContainer container)] := rfl
      rw [hm] at h2
      refine ⟨fun _ => ⟨h2, List.getLast?_concat _, rfl, rfl⟩, fun h => absurd hlt h, ?_, ?_⟩
      · rw [h2]; simp [hlt]
      · exact ⟨fun _ => hlt, fun _ => ⟨rfl, rfl⟩⟩
  · refine ⟨{ ID := automation.ID, NamespaceName := automation.NamespaceName,
              ControllerName := automation.ControllerName,
              ControllerKind := automation.ControllerKind,
              ContainerName := automation.ContainerName, Status := result, Message := msg },
        [Call.FindContainer automation.NamespaceName automation.ControllerKind
            automation.ControllerName automation.ContainerName,
          Call.SetResources automation.ControllerKind automation.ControllerName
            automation.NamespaceName recommended] ++ queries ++ [], ?_, ?_⟩
    · simp only [Executor.execute, hfind, htrans, hrec, hdry, happly, hverify, hlt,
        Bool.false_eq_true, if_false, decide_False, hlog2, List.append_assoc,
        List.singleton_append, List.cons_append, List.nil_append, List.append_nil]
    · have h1 := hmut []
      have hm : mutationCalls [] = [] := rfl
      rw [hm] at h1
      refine ⟨fun h => absurd h hlt, fun _ => ⟨h1, rfl, rfl⟩, ?_, ?_⟩
      · rw [h1]; simp [hlt]
      · refine ⟨fun hfb => ?_, fun h => absurd h hlt⟩
        obtain ⟨hs, hm2⟩ := hfb
        have hs1 : result = .AutomationFailed := hs
        have hm3 : msg = "pods failed to restart" := hm2
        subst hs1 hm3
        have hne1 : ¬ ("pods failed to restart" = "failed to trigger pod status") := by
          decide
        have hne2 : ¬ ("pods failed to restart" = "pods restarting exceeded timout (15 min)") :=
          by decide
        rcases hmsg rfl with h | h
        · exact absurd h hne1
        · exact absurd h hne2

/-- C2 at the example of the specification: target count 3 and only one Running pod when
the ceiling elapses; the mutation collaborator is called a second time with the original
spec and the feedback is `Failed`, "pods failed to restart". -/
theorem execute_rollback_iff_shortfall_witness :
    ∃ feedback calls,
      (sampleExecutor false (false, none) (.ok sampleStatefulSet)
        (.ok [samplePod "web-0" PodRunning, samplePod "web-1" PodPending,
          samplePod "web-2" PodPending]) 2).execute sampleAutomation [] =
        .ok ((feedback, none), [] ++ calls) ∧
      mutationCalls calls =
        [Call.SetResources "StatefulSet" "web" "default"
          { Containers :=
              [{ Name := "app", Requests := some { CPU := some 100, Memory := some 2048 },
                 Limits := some { CPU := some 200, Memory := none } }] },
         Call.SetResources "StatefulSet" "web" "default"
          { Containers :=
              [{ Name := "app", Requests := some { CPU := some 100, Memory := some 256 },
                 Limits := some { CPU := none, Memory := none } }] }] ∧
      feedback.Status = .AutomationFailed ∧ feedback.Message = "pods failed to restart" := by
  obtain ⟨feedback, calls, hexec, hshort, -, -, -⟩ :=
    execute_rollback_iff_shortfall
      (sampleExecutor false (false, none) (.ok sampleStatefulSet)
        (.ok [samplePod "web-0" PodRunning, samplePod "web-1" PodPending,
          samplePod "web-2" PodPending]) 2)
      sampleAutomation []
      [Call.FindContainer "default" "StatefulSet" "web" "app",
       Call.SetResources "StatefulSet" "web" "default"
        { Containers :=
            [{ Name := "app", Requests := some { CPU := some 100, Memory := some 2048 },
               Limits := some { CPU := some 200, Memory := none } }] },
       Call.GetStatefulSet "default" "web", Call.GetNameSpacePods "default",
       Call.GetNameSpacePods "default"]
      (some sampleContainer) sampleContainer
      { Containers :=
          [{ Name := "app", Requests := some { CPU := some 100, Memory := some 2048 },
             Limits := some { CPU := some 200, Memory := none } }] }
      false .AutomationFailed "pods restarting exceeded timout (15 min)" 3 1
      rfl rfl rfl rfl rfl rfl
  obtain ⟨hmut, -, hstatus, hmessage⟩ := hshort (by decide)
  exact ⟨feedback, calls, hexec, hmut, hstatus, hmessage⟩

/-! ### One poll iteration -/

/-- C9, as the code has it: for every target count n (an `int32`) and object name, a poll
iteration whose pod list has exactly n pods in phase Running among the matching pods that
come before the first matching pod whose phase is neither Running nor Pending ends the
verification in that iteration with status `Executed` and running count = target count =
n. The object name and target count are those of the loop, or for a deployment those
that `deploymentsHandler` returns in this iteration. -/
theorem pollLoop_succeeds_at_target (executor : Executor)
    (entityName namespaceName kind : String) (sm : PodPhase → String) (budget : Nat)
    (objectName0 : String) (targetPods0 runningPods0 : Int) (log log1 : List Call)
    (objectName : String) (n : Nat) (pods : List Pod)
    (hresolved :
      (stringsToLower kind ≠ "deployment" ∧ objectName = objectName0 ∧
        (n : Int) = targetPods0 ∧ log1 = log) ∨
      (stringsToLower kind = "deployment" ∧
        executor.deploymentsHandler entityName namespaceName log =
          .ok ((objectName, (n : Int), none), log1)))
    (hpods : executor.kube.GetNameSpacePods log1 namespaceName = .ok pods)
    (hcount : runningCount (podsBeforeTerminal objectName pods) = n)
    (hn : (n : Int) < 2147483648) :
    executor.pollLoop entityName namespaceName kind sm (budget + 1) objectName0 targetPods0
        runningPods0 log =
      .ok ((.AutomationExecuted, sm (scanPods objectName pods PodPending 0).1, (n : Int),
        (n : Int)), log1 ++ [Call.GetNameSpacePods namespaceName]) := by
  have hscan : (scanPods objectName pods PodPending 0).2 = (n : Int) := by
    rw [scanPods_running objectName pods PodPending 0 (le_refl 0) (by rw [hcount]; omega),
      hcount]
    simp
  rcases hresolved with ⟨hk, rfl, ht, rfl⟩ | ⟨hk, hd⟩
  · subst ht
    simp only [Executor.pollLoop, hk, if_false, hpods, hscan, if_true]
  · simp only [Executor.pollLoop, hk, if_true, hd, hpods, hscan]

/-- C9 at the example of the specification: target count 3 and three Running pods
matching the object name. -/
theorem pollLoop_succeeds_at_target_witness :
    (sampleExecutor false (false, none) (.ok sampleStatefulSet)
        (.ok [samplePod "web-0" PodRunning, samplePod "web-1" PodRunning,
          samplePod "web-2" PodRunning]) 1).pollLoop "web" "default" "StatefulSet" statusMap
        (0 + 1) "web" 3 0 [] =
      .ok ((.AutomationExecuted, "pods restarted successfully", 3, 3),
        [Call.GetNameSpacePods "default"]) :=
  pollLoop_succeeds_at_target
    (sampleExecutor false (false, none) (.ok sampleStatefulSet)
      (.ok [samplePod "web-0" PodRunning, samplePod "web-1" PodRunning,
        samplePod "web-2" PodRunning]) 1)
    "web" "default" "StatefulSet" statusMap 0 "web" 3 0 [] [] "web" 3
    [samplePod "web-0" PodRunning, samplePod "web-1" PodRunning, samplePod "web-2" PodRunning]
    (Or.inl ⟨by decide, rfl, rfl, rfl⟩) rfl (by decide) (by decide)

/-- C9, counterexample: the pod list has exactly three Running pods among the pods
matching the object name, the target count is three, but a matching pod in phase Failed
comes first; the scan stops there with a running count of zero and the iteration does not
succeed (here the ceiling then elapses and the result is `Failed`). -/
theorem pollLoop_terminal_pod_first :
    runningCount (matchingPods "web"
      [samplePod "web-0" PodFailed, samplePod "web-1" PodRunning,
        samplePod "web-2" PodRunning, samplePod "web-3" PodRunning]) = 3 ∧
    (sampleExecutor false (false, none) (.ok sampleStatefulSet)
        (.ok [samplePod "web-0" PodFailed, samplePod "web-1" PodRunning,
          samplePod "web-2" PodRunning, samplePod "web-3" PodRunning]) 1).pollLoop
        "web" "default" "StatefulSet" statusMap 1 "web" 3 0 [] =
      .ok ((.AutomationFailed, "pods restarting exceeded timout (15 min)", 3, 0),
        [Call.GetNameSpacePods "default"]) :=
  ⟨by decide, rfl⟩

/-! ### Worker pool -/

/-- The invariant of the executor: the identifiers of the waiting commands are in the
in-progress set, no two waiting commands share an identifier, and the buffer holds at
most its capacity. -/
theorem reachable_invariant (initial : Executor)
    (hchan : initial.automationsChan = []) (s : Executor × List Call)
    (hs : Reachable initial s) :
    (∀ a ∈ s.1.automationsChan, a.ID ∈ s.1.inProgressJobs) ∧
    (s.1.automationsChan.map (fun a => a.ID)).Nodup ∧
    s.1.automationsChan.length ≤ automationsBufferLength := by
  induction hs with
  | start => simp [hchan]
  | next s t _ hstep ih =>
    obtain ⟨hin, hnodup, hlen⟩ := ih
    cases hstep with
    | intake executor log decoded =>
      cases decoded with
      | error err => exact ⟨hin, hnodup, hlen⟩
      | ok automation =>
        by_cases hmem : automation.ID ∈ executor.inProgressJobs
        · simp only [Executor.Listener, hmem, if_true]
          exact ⟨hin, hnodup, hlen⟩
        · by_cases hroom : executor.automationsChan.length < automationsBufferLength
          · simp only [Executor.Listener, hmem, if_false, Executor.submitAutomation, hroom,
              if_true]
            refine ⟨?_, ?_, ?_⟩
            · intro a ha
              rcases List.mem_append.1 ha with ha | ha
              · exact List.mem_cons_of_mem _ (hin a ha)
              · simp only [List.mem_singleton] at ha
                subst ha
                exact List.mem_cons_self _ _
            · simp only [List.map_append, List.map_cons, List.map_nil]
              refine List.Nodup.append hnodup (List.nodup_singleton _) ?_
              intro id h1 h2
              simp only [List.mem_singleton] at h2
              subst h2
              obtain ⟨a, ha, hid⟩ := List.mem_map.1 h1
              apply hmem
              have := hin a ha
              rw [hid] at this
              exact this
            · simp only [List.length_append, List.length_singleton]
              omega
          · simp only [Executor.Listener, hmem, if_false, Executor.submitAutomation, hroom]
            exact ⟨fun a ha => List.mem_cons_of_mem _ (hin a ha), hnodup, hlen⟩
    | work executor executor1 log log1 package h =>
      simp only [Executor.executorWorker] at h
      split at h
      · cases h
      · rename_i automation waiting hq
        split at h
        · cases h
        · simp only [Option.some.injEq, Except.ok.injEq, Prod.mk.injEq] at h
          obtain ⟨-, rfl, -⟩ := h
          simp only at hin hnodup hlen ⊢
          rw [hq] at hin hnodup hlen
          simp only [List.map_cons, List.nodup_cons, List.mem_map, not_exists, not_and,
            List.length_cons] at hnodup hlen
          refine ⟨?_, hnodup.2, by omega⟩
          intro a ha
          rw [List.mem_filter]
          refine ⟨hin a (List.mem_cons_of_mem _ ha), ?_⟩
          simp only [ne_eq, decide_not, Bool.not_eq_true', decide_eq_false_iff_not]
          exact hnodup.1 a ha

/-- The verifier reads the cluster through its five queries, the sort and the clock only:
two executors that agree on them verify alike. -/
theorem pollLoop_congr (e1 e2 : Executor)
    (hrs : e1.kube.GetNamespaceReplicaSets = e2.kube.GetNamespaceReplicaSets)
    (hpods : e1.kube.GetNameSpacePods = e2.kube.GetNameSpacePods)
    (hrt : e1.rt = e2.rt) (entityName namespaceName kind : String) (sm : PodPhase → String) :
    ∀ (budget : Nat) (objectName : String) (targetPods runningPods : Int) (log : List Call),
      e1.pollLoop entityName namespaceName kind sm budget objectName targetPods runningPods
          log =
        e2.pollLoop entityName namespaceName kind sm budget objectName targetPods runningPods
          log := by
  intro budget
  induction budget with
  | zero => intro objectName targetPods runningPods log; rfl
  | succ budget ih =>
    intro objectName targetPods runningPods log
    simp only [Executor.pollLoop, Executor.deploymentsHandler, hrs, hpods, hrt, ih]

theorem podsStatusHandler_congr (e1 e2 : Executor)
    (hss : e1.kube.GetStatefulSet = e2.kube.GetStatefulSet)
    (hds : e1.kube.GetDaemonSet = e2.kube.GetDaemonSet)
    (hcj : e1.kube.GetCronJob = e2.kube.GetCronJob)
    (hrs : e1.kube.GetNamespaceReplicaSets = e2.kube.GetNamespaceReplicaSets)
    (hpods : e1.kube.GetNameSpacePods = e2.kube.GetNameSpacePods)
    (hrt : e1.rt = e2.rt) (entityName namespaceName kind : String) (sm : PodPhase → String)
    (log : List Call) :
    e1.podsStatusHandler entityName namespaceName kind sm log =
      e2.podsStatusHandler entityName namespaceName kind sm log := by
  simp only [Executor.podsStatusHandler, Executor.statefulsetsHandler,
    Executor.daemonsetsHandler, hss, hds, hcj, hrt,
    pollLoop_congr e1 e2 hrs hpods hrt]

/-- The execution unit does not read the buffer nor the in-progress set. -/
theorem execute_congr (e1 e2 : Executor) (hkube : e1.kube = e2.kube)
    (hfinder : e1.entitiesFinder = e2.entitiesFinder) (hrt : e1.rt = e2.rt)
    (hdry : e1.dryRun = e2.dryRun) (automation : PacketAutomation) (log : List Call) :
    e1.execute automation log = e2.execute automation log := by
  have hv := podsStatusHandler_congr e1 e2 (by rw [hkube]) (by rw [hkube]) (by rw [hkube])
    (by rw [hkube]) (by rw [hkube]) hrt
  simp only [Executor.execute, hkube, hfinder, hrt, hdry, hv, Executor.handleExecutionSkipping,
    Executor.handleExecutionError]

/-- C11: in every state reached from a new executor by intakes and worker iterations, the
identifier of each command waiting in the buffer is in the in-progress set; and whenever
`execute` returns for the oldest waiting command, with or without an error beside the
feedback, the worker iteration pipes that feedback and leaves the identifier out of the
in-progress set, so that a redelivery of the same identifier is then enqueued as a new
command. -/
theorem executor_lifecycle (kube : Kube) (entitiesFinder : EntitiesFinder) (rt : Runtime)
    (workersCount : Nat) (dryRun : Bool) (s : Executor × List Call)
    (hs : Reachable (NewExecutor kube entitiesFinder rt workersCount dryRun) s) :
    (∀ a ∈ s.1.automationsChan, a.ID ∈ s.1.inProgressJobs) ∧
    (∀ (automation : PacketAutomation) (waiting : List PacketAutomation)
        (feedback : PacketAutomationFeedbackRequest) (err : Option String) (log1 : List Call),
      s.1.automationsChan = automation :: waiting →
      s.1.execute automation s.2 = .ok ((feedback, err), log1) →
      ∃ (package : Package) (executor1 : Executor),
        s.1.executorWorker s.2 = some (.ok (package, executor1, log1)) ∧
        package.Data = feedback ∧
        executor1.automationsChan = waiting ∧
        automation.ID ∉ executor1.inProgressJobs ∧
        ∀ redelivery : PacketAutomation, redelivery.ID = automation.ID →
          executor1.Listener (.ok redelivery) =
            (.response { ID := "", Error := none },
              { executor1 with
                inProgressJobs := redelivery.ID :: executor1.inProgressJobs
                automationsChan := executor1.automationsChan ++
                  [convertAutomationMemoryFromKiloByteToMegabyte redelivery] })) := by
  obtain ⟨hin, -, hlen⟩ := reachable_invariant _ rfl s hs
  refine ⟨hin, ?_⟩
  intro automation waiting feedback err log1 hq hexec
  have hexec1 : ({ s.1 with automationsChan := waiting } : Executor).execute automation s.2 =
      .ok ((feedback, err), log1) := by
    rw [← hexec]
    exact execute_congr ({ s.1 with automationsChan := waiting } : Executor) s.1 rfl rfl rfl
      rfl automation s.2
  have hnot : automation.ID ∉
      s.1.inProgressJobs.filter (fun id => id ≠ automation.ID) := by
    simp [List.mem_filter]
  refine ⟨{ Kind := .PacketKindAutomationFeedback,
            ExpiryTime := automationsFeedbackExpiryTime,
            ExpiryCount := automationsFeedbackExpiryCount,
            Priority := automationsFeedbackExpiryPriority,
            Retries := automationsFeedbackExpiryRetries,
            Data := feedback },
    { s.1 with
      automationsChan := waiting
      inProgressJobs := s.1.inProgressJobs.filter (fun id => id ≠ automation.ID) },
    ?_, rfl, rfl, hnot, ?_⟩
  · simp only [Executor.executorWorker, hq, hexec1]
  · intro redelivery hid
    rw [hq, List.length_cons] at hlen
    have hroom : waiting.length < automationsBufferLength := by omega
    have hnot1 : redelivery.ID ∉
        s.1.inProgressJobs.filter (fun id => id ≠ automation.ID) := by
      rw [hid]; exact hnot
    simp only [Executor.Listener, Executor.submitAutomation, hroom, if_true]
    rw [if_neg hnot1]

/-- C11 on a run: the sample command is taken in, a worker processes it in dry-run mode,
and the command is delivered again. -/
theorem executor_lifecycle_witness :
    (∀ a ∈ [convertAutomationMemoryFromKiloByteToMegabyte sampleAutomation], a.ID ∈ ["X"]) ∧
    ∃ (package : Package) (executor1 : Executor),
      ((NewExecutor (sampleKube (false, none) (.ok sampleStatefulSet) (.ok []))
          { FindContainer := fun _ _ _ _ _ => .ok (some sampleContainer) }
          (sampleRuntime 1) 1 true).Listener (.ok sampleAutomation)).2.executorWorker [] =
        some (.ok (package, executor1,
          [Call.FindContainer "default" "StatefulSet" "web" "app"])) ∧
      package.Data.Message = "dry run enabled" ∧
      executor1.automationsChan = [] ∧
      "X" ∉ executor1.inProgressJobs ∧
      (executor1.Listener (.ok sampleAutomation)).2.automationsChan =
        [convertAutomationMemoryFromKiloByteToMegabyte sampleAutomation] := by
  have h := executor_lifecycle (sampleKube (false, none) (.ok sampleStatefulSet) (.ok []))
    { FindContainer := fun _ _ _ _ _ => .ok (some sampleContainer) } (sampleRuntime 1) 1 true
    (((NewExecutor (sampleKube (false, none) (.ok sampleStatefulSet) (.ok []))
          { FindContainer := fun _ _ _ _ _ => .ok (some sampleContainer) }
          (sampleRuntime 1) 1 true).Listener (.ok sampleAutomation)).2, [])
    (Reachable.next _ _ Reachable.start (Step.intake _ _ (.ok sampleAutomation)))
  refine ⟨h.1, ?_⟩
  obtain ⟨package, executor1, hwork, hdata, hchan, hout, hagain⟩ :=
    h.2 (convertAutomationMemoryFromKiloByteToMegabyte sampleAutomation) []
      (makeAutomationFailedResponse
        (convertAutomationMemoryFromKiloByteToMegabyte sampleAutomation) "dry run enabled")
      none [Call.FindContainer "default" "StatefulSet" "web" "app"] rfl rfl
  refine ⟨package, executor1, hwork, ?_, hchan, hout, ?_⟩
  · rw [hdata]; rfl
  · rw [hagain sampleAutomation rfl, hchan]; rfl

/-! ### Deployments -/

/-- The error that `deploymentsHandler` returns is always nil. -/
theorem deploymentsHandler_error_nil (executor : Executor) (entityName namespaceName : String)
    (log log1 : List Call) (deploymentName : String) (targetPods : Int) (err : Option String)
    (h : executor.deploymentsHandler entityName namespaceName log =
      .ok ((deploymentName, targetPods, err), log1)) : err = none := by
  unfold Executor.deploymentsHandler at h
  simp only at h
  split at h
  · cases h
  · split at h
    · cases h
    · split at h
      · cases h
      · simp only [Except.ok.injEq, Prod.mk.injEq] at h
        exact h.1.2.2.symm

/-- C12, what the code does: for the sample command addressed to a deployment, `execute`
does not return when the namespace has no replica set matching the controller name with
at least one replica (index out of range in `deploymentsHandler`) nor when the replica-set
listing fails with a nil list (nil dereference), and the worker iteration ends with that
panic. -/
theorem execute_deployment_panics :
    (sampleDeploymentExecutor (some [sampleReplicaSet "db-5d8" 1 1 50], none) (.ok []) 2).execute
        sampleDeploymentAutomation [] = .error .indexOutOfRange ∧
    (sampleDeploymentExecutor (none, some "unable to retrieve list of replicasets") (.ok [])
        2).execute sampleDeploymentAutomation [] = .error .nilDereference ∧
    ({ sampleDeploymentExecutor (some [sampleReplicaSet "db-5d8" 1 1 50], none) (.ok []) 2 with
        automationsChan := [sampleDeploymentAutomation]
        inProgressJobs := ["X"] } : Executor).executorWorker [] =
      some (.error .indexOutOfRange) :=
  ⟨rfl, rfl, rfl⟩

/-- C17, what the code does: when the replica-set listing of a poll iteration fails with a
nil list, `deploymentsHandler` panics and so does `podsStatusHandler`; when it fails but
still carries a list, `deploymentsHandler` returns a target with a nil error. -/
theorem deploymentsHandler_listing_failure :
    (sampleDeploymentExecutor (none, some "unable to retrieve list of replicasets") (.ok [])
        2).deploymentsHandler "web" "default" [] = .error .nilDereference ∧
    (sampleDeploymentExecutor (none, some "unable to retrieve list of replicasets") (.ok [])
        2).podsStatusHandler "web" "default" "Deployment" statusMap [] =
      .error .nilDereference ∧
    (sampleDeploymentExecutor
        (some [sampleReplicaSet "web-7c9" 3 1 50], some "unable to retrieve list of replicasets")
        (.ok []) 2).deploymentsHandler "web" "default" [] =
      .ok (("web-7c9", 3, none), [Call.GetNamespaceReplicaSets "default"]) :=
  ⟨rfl, rfl, rfl⟩

/-! ### Upfront resolution -/

/-- C16: for a kind that is `statefulset`, `daemonset`, `job` or `cronjob` once lowered,
if the initial fetch of the object fails then `podsStatusHandler` returns status `Failed`,
message "failed to trigger pod status", target count 0 and running count 0, and the
fetch is the only call it makes: the polling loop is not entered and no pod is listed. -/
theorem podsStatusHandler_dispatch_failed (executor : Executor)
    (entityName namespaceName kind : String) (sm : PodPhase → String) (log : List Call)
    (err : String)
    (hfetch :
      (stringsToLower kind = "statefulset" ∧
        executor.kube.GetStatefulSet log namespaceName entityName = .error err) ∨
      (stringsToLower kind = "daemonset" ∧
        executor.kube.GetDaemonSet log namespaceName entityName = .error err) ∨
      ((stringsToLower kind = "job" ∨ stringsToLower kind = "cronjob") ∧
        executor.kube.GetCronJob log namespaceName entityName = .error err)) :
    ∃ call : Call,
      executor.podsStatusHandler entityName namespaceName kind sm log =
        .ok ((.AutomationFailed, "failed to trigger pod status", 0, 0), log ++ [call]) ∧
      (call = Call.GetStatefulSet namespaceName entityName ∨
        call = Call.GetDaemonSet namespaceName entityName ∨
        call = Call.GetCronJob namespaceName entityName) ∧
      Call.GetNameSpacePods namespaceName ∉ [call] := by
  rcases hfetch with ⟨hk, hf⟩ | ⟨hk, hf⟩ | ⟨hk, hf⟩
  · refine ⟨Call.GetStatefulSet namespaceName entityName, ?_, Or.inl rfl, by simp⟩
    simp only [Executor.podsStatusHandler, hk, if_true, Executor.statefulsetsHandler, hf]
  · refine ⟨Call.GetDaemonSet namespaceName entityName, ?_, Or.inr (Or.inl rfl), by simp⟩
    have h1 : ¬ ("daemonset" = "statefulset") := by decide
    simp only [Executor.podsStatusHandler, hk, h1, if_false, if_true,
      Executor.daemonsetsHandler, hf]
  · refine ⟨Call.GetCronJob namespaceName entityName, ?_, Or.inr (Or.inr rfl), by simp⟩
    have h1 : ¬ (stringsToLower kind = "statefulset") := by
      rcases hk with hk | hk <;> rw [hk] <;> decide
    have h2 : ¬ (stringsToLower kind = "daemonset") := by
      rcases hk with hk | hk <;> rw [hk] <;> decide
    have h3 : (decide (stringsToLower kind = "job") || decide (stringsToLower kind = "cronjob"))
        = true := by
      rcases hk with hk | hk <;> simp [hk]
    simp only [Executor.podsStatusHandler, h1, h2, h3, if_false, if_true, hf]

/-- C16 on a run: kind `StatefulSet`, written with capitals, and a fetch that fails. -/
theorem podsStatusHandler_dispatch_failed_witness :
    ∃ call : Call,
      (sampleExecutor false (false, none) (.error "statefulset not found")
          (.ok [samplePod "web-0" PodRunning]) 2).podsStatusHandler "web" "default"
          "StatefulSet" statusMap [] =
        .ok ((.AutomationFailed, "failed to trigger pod status", 0, 0), [] ++ [call]) ∧
      (call = Call.GetStatefulSet "default" "web" ∨ call = Call.GetDaemonSet "default" "web" ∨
        call = Call.GetCronJob "default" "web") ∧
      Call.GetNameSpacePods "default" ∉ [call] :=
  podsStatusHandler_dispatch_failed
    (sampleExecutor false (false, none) (.error "statefulset not found")
      (.ok [samplePod "web-0" PodRunning]) 2)
    "web" "default" "StatefulSet" statusMap [] "statefulset not found"
    (Or.inl ⟨by decide, rfl⟩)

/-- C19: for every stateful set successfully fetched, `statefulsetsHandler` returns its name
and its declared replica count when it reports at least one ready replica, and the empty
name with target count 0 and no error otherwise; the empty name is contained in every
generated name, so that every pod of the listing matches in the scan. -/
theorem statefulsetsHandler_spec (executor : Executor) (entityName namespaceName : String)
    (log : List Call) (statefulset : StatefulSet)
    (hget : executor.kube.GetStatefulSet log namespaceName entityName = .ok statefulset) :
    (∀ n : Int, 1 ≤ statefulset.StatusReadyReplicas → statefulset.SpecReplicas = some n →
      executor.statefulsetsHandler entityName namespaceName log =
        .ok ((statefulset.Name, n, none),
          log ++ [Call.GetStatefulSet namespaceName entityName])) ∧
    (statefulset.StatusReadyReplicas < 1 →
      executor.statefulsetsHandler entityName namespaceName log =
        .ok (("", 0, none), log ++ [Call.GetStatefulSet namespaceName entityName])) ∧
    (∀ pods : List Pod, matchingPods "" pods = pods) := by
  refine ⟨?_, ?_, ?_⟩
  · intro n hready hspec
    have hpos : statefulset.StatusReadyReplicas > 0 := by omega
    simp only [Executor.statefulsetsHandler, hget, hpos, if_true, hspec]
  · intro hready
    have hpos : ¬ statefulset.StatusReadyReplicas > 0 := by omega
    simp only [Executor.statefulsetsHandler, hget, hpos, if_false]
  · intro pods
    have hall : ∀ s : List Char, containsChars s [] = true := by
      intro s
      cases s with
      | nil => rfl
      | cons c s => simp [containsChars, startsWithChars]
    unfold matchingPods
    rw [List.filter_eq_self]
    intro pod _
    exact hall _

/-- C19 on a run: the sample stateful set (three replicas declared, one ready), and the
same stateful set with no ready replica, for which every listed pod matches. -/
theorem statefulsetsHandler_spec_witness :
    (sampleExecutor false (false, none) (.ok sampleStatefulSet) (.ok []) 1).statefulsetsHandler
        "web" "default" [] = .ok (("web", 3, none), [] ++ [Call.GetStatefulSet "default" "web"]) ∧
    (sampleExecutor false (false, none)
        (.ok { Name := "web", SpecReplicas := some 3, StatusReadyReplicas := 0 })
        (.ok [])  1).statefulsetsHandler "web" "default" [] =
      .ok (("", 0, none), [] ++ [Call.GetStatefulSet "default" "web"]) ∧
    matchingPods "" [samplePod "web-0" PodRunning, ⟨"db-0", "db-", PodRunning⟩] =
      [samplePod "web-0" PodRunning, ⟨"db-0", "db-", PodRunning⟩] :=
  ⟨(statefulsetsHandler_spec
      (sampleExecutor false (false, none) (.ok sampleStatefulSet) (.ok []) 1)
      "web" "default" [] sampleStatefulSet rfl).1 3 (by decide) rfl,
    (statefulsetsHandler_spec
      (sampleExecutor false (false, none)
        (.ok { Name := "web", SpecReplicas := some 3, StatusReadyReplicas := 0 }) (.ok []) 1)
      "web" "default" [] { Name := "web", SpecReplicas := some 3, StatusReadyReplicas := 0 }
      rfl).2.1 (by decide),
    (statefulsetsHandler_spec
      (sampleExecutor false (false, none) (.ok sampleStatefulSet) (.ok []) 1)
      "web" "default" [] sampleStatefulSet rfl).2.2 _⟩

/-! ### The pod scan -/

theorem wrapInt32_add_one (x : Int) : wrapInt32 (wrapInt32 x + 1) = wrapInt32 (x + 1) := by
  unfold wrapInt32; omega

/-- The running counter after the scan, from any starting value of the counter: the
`int32` of the starting value plus the number of Running pods before the first terminal
matching pod. -/
theorem scanPods_count (objectName : String) :
    ∀ (pods : List Pod) (status : PodPhase) (r : Int),
      (scanPods objectName pods status (wrapInt32 r)).2 =
        wrapInt32 (r + (runningCount (podsBeforeTerminal objectName pods) : Int)) := by
  intro pods
  induction pods with
  | nil => intro status r; simp [scanPods, podsBeforeTerminal, matchingPods, runningCount]
  | cons pod rest ih =>
    intro status r
    by_cases hm : stringsContains pod.GenerateName objectName = true
    · by_cases hr : pod.Phase = PodRunning
      · have hc : runningCount (podsBeforeTerminal objectName (pod :: rest)) =
            runningCount (podsBeforeTerminal objectName rest) + 1 := by
          simp [podsBeforeTerminal, matchingPods, runningCount, hm, hr, List.takeWhile_cons]
        rw [hc]
        push_cast
        simp only [scanPods, hm, hr, if_true, wrapInt32_add_one]
        rw [ih _ (r + 1)]
        congr 1
        ring
      · by_cases hp : pod.Phase = PodPending
        · have hc : runningCount (podsBeforeTerminal objectName (pod :: rest)) =
              runningCount (podsBeforeTerminal objectName rest) := by
            have hne : ¬ (PodPending = PodRunning) := by decide
            simp [podsBeforeTerminal, matchingPods, runningCount, hm, hp, hne,
              List.takeWhile_cons, List.filter_cons]
          rw [hc]
          simp only [scanPods, hm, hr, hp, if_true, if_false, ne_eq, not_true_eq_false]
          exact ih _ _
        · have hc : runningCount (podsBeforeTerminal objectName (pod :: rest)) = 0 := by
            simp [podsBeforeTerminal, matchingPods, runningCount, hm, hr, hp,
              List.takeWhile_cons]
          rw [hc]
          simp [scanPods, hm, hr, hp]
    · have hc : podsBeforeTerminal objectName (pod :: rest) =
          podsBeforeTerminal objectName rest := by
        simp [podsBeforeTerminal, matchingPods, hm]
      rw [hc]
      simp only [scanPods, hm, if_false, Bool.false_eq_true]
      exact ih _ _

/-- The scan does not look at the pods that do not match. -/
theorem scanPods_matching (objectName : String) :
    ∀ (pods : List Pod) (status : PodPhase) (r : Int),
      scanPods objectName pods status r =
        scanPods objectName (matchingPods objectName pods) status r := by
  intro pods
  induction pods with
  | nil => intro status r; rfl
  | cons pod rest ih =>
    intro status r
    by_cases hm : stringsContains pod.GenerateName objectName = true
    · have hf : matchingPods objectName (pod :: rest) = pod :: matchingPods objectName rest := by
        simp [matchingPods, hm]
      rw [hf]
      simp only [scanPods, hm, if_true]
      split_ifs
      · exact ih _ _
      · rfl
      · exact ih _ _
    · have hf : matchingPods objectName (pod :: rest) = matchingPods objectName rest := by
        simp [matchingPods, hm]
      rw [hf]
      simp only [scanPods, hm, if_false, Bool.false_eq_true]
      exact ih _ _

/-- The scan stops at a matching pod whose phase is neither Running nor Pending: the
pods listed after it change nothing. -/
theorem scanPods_stops (objectName : String) (terminal : Pod) (later : List Pod)
    (hm : stringsContains terminal.GenerateName objectName = true)
    (hr : terminal.Phase ≠ PodRunning) (hp : terminal.Phase ≠ PodPending) :
    ∀ (earlier : List Pod) (status : PodPhase) (r : Int),
      scanPods objectName (earlier ++ terminal :: later) status r =
        scanPods objectName (earlier ++ [terminal]) status r := by
  intro earlier
  induction earlier with
  | nil => intro status r; simp [scanPods, hm, hr, hp]
  | cons pod rest ih =>
    intro status r
    simp only [List.cons_append, scanPods]
    split_ifs
    · exact ih _ _
    · rfl
    · exact ih _ _
    · exact ih _ _

/-- The phase the scan ends with is the phase of the last pod looked at. -/
theorem scanPods_status (objectName : String) :
    ∀ (pods : List Pod) (status : PodPhase) (r : Int),
      (scanPods objectName pods status r).1 =
        match (podsScanned objectName pods).getLast? with
        | some pod => pod.Phase
        | none => status := by
  intro pods
  induction pods with
  | nil => intro status r; rfl
  | cons pod rest ih =>
    intro status r
    by_cases hm : stringsContains pod.GenerateName objectName = true
    · by_cases hr : pod.Phase = PodRunning
      · simp only [scanPods, podsScanned, hm, hr, if_true, true_or]
        rw [ih]
        cases hl : (podsScanned objectName rest).getLast? with
        | none =>
          rw [List.getLast?_eq_none_iff] at hl
          simp [hl, hr]
        | some last =>
          have hne : podsScanned objectName rest ≠ [] := by
            intro h; rw [h] at hl; cases hl
          obtain ⟨x, xs, hx⟩ := List.exists_cons_of_ne_nil hne
          rw [hx] at hl ⊢
          rw [List.getLast?_cons_cons, hl]
      · by_cases hp : pod.Phase = PodPending
        · have hne1 : ¬ (PodPending = PodRunning) := by decide
          simp only [scanPods, podsScanned, hm, hp, hne1, if_true, if_false, or_true, ne_eq,
            not_true_eq_false]
          rw [ih]
          cases hl : (podsScanned objectName rest).getLast? with
          | none =>
            rw [List.getLast?_eq_none_iff] at hl
            simp [hl, hp]
          | some last =>
            have hne : podsScanned objectName rest ≠ [] := by
              intro h; rw [h] at hl; cases hl
            obtain ⟨x, xs, hx⟩ := List.exists_cons_of_ne_nil hne
            rw [hx] at hl ⊢
            rw [List.getLast?_cons_cons, hl]
        · simp [scanPods, podsScanned, hm, hr, hp]
    · simp only [scanPods, podsScanned, hm, if_false, Bool.false_eq_true]
      exact ih _ _

/-- C14: for every pod list and object name, the running count computed by the scan of
one poll iteration is the number of pods in phase Running among the matching pods that
come before the first matching pod whose phase is neither Running nor Pending, held in
an `int32` (the number itself when it is below 2^31); the pods that do not match do not
affect the scan, and the pods listed after that first terminal pod are not looked at. -/
theorem scanPods_running_count (objectName : String) (pods : List Pod) :
    (scanPods objectName pods PodPending 0).2 =
      wrapInt32 (runningCount (podsBeforeTerminal objectName pods)) ∧
    ((runningCount (podsBeforeTerminal objectName pods) : Int) < 2147483648 →
      (scanPods objectName pods PodPending 0).2 =
        (runningCount (podsBeforeTerminal objectName pods) : Int)) ∧
    scanPods objectName pods PodPending 0 =
      scanPods objectName (matchingPods objectName pods) PodPending 0 ∧
    (∀ (earlier later : List Pod) (terminal : Pod),
      pods = earlier ++ terminal :: later →
      stringsContains terminal.GenerateName objectName = true →
      terminal.Phase ≠ PodRunning → terminal.Phase ≠ PodPending →
      scanPods objectName pods PodPending 0 =
        scanPods objectName (earlier ++ [terminal]) PodPending 0) := by
  have h0 : wrapInt32 0 = 0 := by decide
  have hcount := scanPods_count objectName pods PodPending 0
  rw [h0, zero_add] at hcount
  refine ⟨hcount, ?_, scanPods_matching objectName pods PodPending 0, ?_⟩
  · intro hlt
    rw [hcount]
    exact wrapInt32_of_range _ (by omega) hlt
  · intro earlier later terminal hpods hm hr hp
    rw [hpods]
    exact scanPods_stops objectName terminal later hm hr hp earlier PodPending 0

/-- C14 on a run: two Running pods of `web`, a pod of another controller, a Failed pod of
`web`, and one more Running pod of `web` that the scan does not reach. -/
theorem scanPods_running_count_witness :
    (scanPods "web"
        [samplePod "web-0" PodRunning, ⟨"db-0", "db-", PodRunning⟩,
          samplePod "web-1" PodRunning, samplePod "web-2" PodFailed,
          samplePod "web-3" PodRunning] PodPending 0).2 = 2 ∧
    scanPods "web"
        [samplePod "web-0" PodRunning, ⟨"db-0", "db-", PodRunning⟩,
          samplePod "web-1" PodRunning, samplePod "web-2" PodFailed,
          samplePod "web-3" PodRunning] PodPending 0 =
      scanPods "web"
        ([samplePod "web-0" PodRunning, ⟨"db-0", "db-", PodRunning⟩,
          samplePod "web-1" PodRunning] ++ [samplePod "web-2" PodFailed]) PodPending 0 :=
  ⟨(scanPods_running_count "web"
      [samplePod "web-0" PodRunning, ⟨"db-0", "db-", PodRunning⟩,
        samplePod "web-1" PodRunning, samplePod "web-2" PodFailed,
        samplePod "web-3" PodRunning]).2.1 (by decide),
    (scanPods_running_count "web"
      [samplePod "web-0" PodRunning, ⟨"db-0", "db-", PodRunning⟩,
        samplePod "web-1" PodRunning, samplePod "web-2" PodFailed,
        samplePod "web-3" PodRunning]).2.2.2
      [samplePod "web-0" PodRunning, ⟨"db-0", "db-", PodRunning⟩,
        samplePod "web-1" PodRunning]
      [samplePod "web-3" PodRunning] (samplePod "web-2" PodFailed) rfl (by decide) (by decide)
      (by decide)⟩

/-- C15: in every poll iteration whose target resolution and pod listing succeed, the
iteration ends the verification with status `Executed` when its running count equals the
target count, with the message keyed by the phase last observed in the scan, and goes on
to the next iteration otherwise; in the last iteration the clock admits the result is
`Executed` if and only if the counts are equal. The messages keyed by Running, Failed and
Unknown are "pods restarted successfully", "pods failed to restart" and "pods status
is unknown". -/
theorem pollLoop_iteration_outcome (executor : Executor)
    (entityName namespaceName kind : String) (sm : PodPhase → String) (budget : Nat)
    (objectName0 : String) (targetPods0 runningPods0 : Int) (log log1 : List Call)
    (objectName : String) (targetPods : Int) (pods : List Pod)
    (hresolved :
      (stringsToLower kind ≠ "deployment" ∧ objectName = objectName0 ∧
        targetPods = targetPods0 ∧ log1 = log) ∨
      (stringsToLower kind = "deployment" ∧
        executor.deploymentsHandler entityName namespaceName log =
          .ok ((objectName, targetPods, none), log1)))
    (hpods : executor.kube.GetNameSpacePods log1 namespaceName = .ok pods) :
    ((scanPods objectName pods PodPending 0).2 = targetPods →
      executor.pollLoop entityName namespaceName kind sm (budget + 1) objectName0 targetPods0
          runningPods0 log =
        .ok ((.AutomationExecuted, sm (lastObservedPhase objectName pods), targetPods,
          targetPods), log1 ++ [Call.GetNameSpacePods namespaceName])) ∧
    ((scanPods objectName pods PodPending 0).2 ≠ targetPods →
      executor.pollLoop entityName namespaceName kind sm (budget + 1) objectName0 targetPods0
          runningPods0 log =
        executor.pollLoop entityName namespaceName kind sm budget objectName targetPods
          (scanPods objectName pods PodPending 0).2
          (log1 ++ [Call.GetNameSpacePods namespaceName])) ∧
    ((∃ r, executor.pollLoop entityName namespaceName kind sm (0 + 1) objectName0 targetPods0
          runningPods0 log = .ok r ∧ r.1.1 = .AutomationExecuted) ↔
      (scanPods objectName pods PodPending 0).2 = targetPods) ∧
    statusMap PodRunning = "pods restarted successfully" ∧
    statusMap PodFailed = "pods failed to restart" ∧
    statusMap PodUnknown = "pods status is unknown" := by
  have hstatus : (scanPods objectName pods PodPending 0).1 = lastObservedPhase objectName pods :=
    scanPods_status objectName pods PodPending 0
  have hstep : ∀ b : Nat,
      executor.pollLoop entityName namespaceName kind sm (b + 1) objectName0 targetPods0
          runningPods0 log =
        if (scanPods objectName pods PodPending 0).2 = targetPods then
          .ok ((.AutomationExecuted, sm (scanPods objectName pods PodPending 0).1, targetPods,
            (scanPods objectName pods PodPending 0).2),
            log1 ++ [Call.GetNameSpacePods namespaceName])
        else
          executor.pollLoop entityName namespaceName kind sm b objectName targetPods
            (scanPods objectName pods PodPending 0).2
            (log1 ++ [Call.GetNameSpacePods namespaceName]) := by
    intro b
    rcases hresolved with ⟨hk, rfl, rfl, rfl⟩ | ⟨hk, hd⟩
    · simp only [Executor.pollLoop, hk, if_false, hpods]
    · simp only [Executor.pollLoop, hk, if_true, hd, hpods]
  refine ⟨?_, ?_, ?_, by decide, by decide, by decide⟩
  · intro heq
    rw [hstep, if_pos heq, hstatus, heq]
  · intro hne
    rw [hstep, if_neg hne]
  · rw [hstep]
    constructor
    · rintro ⟨r, hr, hexec⟩
      by_contra hne
      rw [if_neg hne] at hr
      simp only [Executor.pollLoop, Except.ok.injEq] at hr
      rw [← hr] at hexec
      cases hexec
    · intro heq
      rw [if_pos heq]
      exact ⟨_, rfl, rfl⟩

/-- C15 on a run: target count 0 and a first matching pod in phase Failed; the running
count is 0, the iteration ends with status `Executed` and the message keyed by Failed. -/
theorem pollLoop_iteration_outcome_witness :
    (sampleExecutor false (false, none) (.ok sampleStatefulSet)
        (.ok [samplePod "web-0" PodFailed, samplePod "web-1" PodRunning]) 1).pollLoop "web"
        "default" "StatefulSet" statusMap (0 + 1) "web" 0 0 [] =
      .ok ((.AutomationExecuted, "pods failed to restart", 0, 0),
        [] ++ [Call.GetNameSpacePods "default"]) :=
  (pollLoop_iteration_outcome
    (sampleExecutor false (false, none) (.ok sampleStatefulSet)
      (.ok [samplePod "web-0" PodFailed, samplePod "web-1" PodRunning]) 1)
    "web" "default" "StatefulSet" statusMap 0 "web" 0 0 [] [] "web" 0
    [samplePod "web-0" PodFailed, samplePod "web-1" PodRunning]
    (Or.inl ⟨by decide, rfl, rfl, rfl⟩) rfl).1 (by decide)

/-! ### Rollback -/

/-- What `execute` returns when the forward apply succeeded and the verifier returned a
running count below the target count. -/
theorem execute_shortfall_eq (executor : Executor) (automation : PacketAutomation)
    (log log2 : List Call) (c : Option Container) (container : Container)
    (recommended : TotalResources) (skipped : Bool)
    (result : AutomationStatus) (msg : String) (targetPodCount runningPods : Int)
    (hdry : executor.dryRun = false)
    (hfind : executor.entitiesFinder.FindContainer log automation.NamespaceName
      automation.ControllerKind automation.ControllerName automation.ContainerName = .ok c)
    (htrans : executor.rt.Transcode c = .ok container)
    (hrec : buildRecommendedResourcesFromAutomation
      (buildOriginalResourcesFromContainer container) automation = .ok recommended)
    (happly : executor.kube.SetResources
      (log ++ [Call.FindContainer automation.NamespaceName automation.ControllerKind
        automation.ControllerName automation.ContainerName])
      automation.ControllerKind automation.ControllerName automation.NamespaceName
      recommended = (skipped, none))
    (hverify : executor.podsStatusHandler automation.ControllerName automation.NamespaceName
      automation.ControllerKind statusMap
      (log ++ [Call.FindContainer automation.NamespaceName automation.ControllerKind
          automation.ControllerName automation.ContainerName] ++
        [Call.SetResources automation.ControllerKind automation.ControllerName
          automation.NamespaceName recommended]) =
      .ok ((result, msg, targetPodCount, runningPods), log2))
    (hshort : runningPods < targetPodCount) :
    executor.execute automation log =
      .ok (({ ID := automation.ID, NamespaceName := automation.NamespaceName,
              ControllerName := automation.ControllerName,
              ControllerKind := automation.ControllerKind,
              ContainerName := automation.ContainerName, Status := .AutomationFailed,
              Message := "pods failed to restart" }, none),
        log2 ++ [Call.SetResources automation.ControllerKind automation.ControllerName
          automation.NamespaceName (buildOriginalResourcesFromContainer container)]) := by
  have hsm : statusMap PodFailed = "pods failed to restart" := by decide
  simp only [List.append_assoc, List.singleton_append, List.cons_append,
    List.nil_append] at hverify
  simp only [Executor.execute, hfind, htrans, hrec, hdry, happly, hverify, hshort,
    Bool.false_eq_true, if_false, decide_True, if_true, List.append_assoc,
    List.singleton_append, List.cons_append, List.nil_append, hsm]

/-- C13: for every command that reaches rollback, whatever the mutation collaborator
answers to the rollback call, `execute` returns the same feedback (status `Failed`,
message "pods failed to restart") and makes the same calls: the forward apply and one
rollback call with the original spec are its only calls to the mutation collaborator. -/
theorem execute_rollback_outcome_ignored (executor : Executor) (automation : PacketAutomation)
    (log log2 : List Call) (c : Option Container) (container : Container)
    (recommended : TotalResources) (skipped : Bool)
    (result : AutomationStatus) (msg : String) (targetPodCount runningPods : Int)
    (response : Bool × Option String)
    (hdry : executor.dryRun = false)
    (hfind : executor.entitiesFinder.FindContainer log automation.NamespaceName
      automation.ControllerKind automation.ControllerName automation.ContainerName = .ok c)
    (htrans : executor.rt.Transcode c = .ok container)
    (hrec : buildRecommendedResourcesFromAutomation
      (buildOriginalResourcesFromContainer container) automation = .ok recommended)
    (happly : executor.kube.SetResources
      (log ++ [Call.FindContainer automation.NamespaceName automation.ControllerKind
        automation.ControllerName automation.ContainerName])
      automation.ControllerKind automation.ControllerName automation.NamespaceName
      recommended = (skipped, none))
    (hverify : executor.podsStatusHandler automation.ControllerName automation.NamespaceName
      automation.ControllerKind statusMap
      (log ++ [Call.FindContainer automation.NamespaceName automation.ControllerKind
          automation.ControllerName automation.ContainerName] ++
        [Call.SetResources automation.ControllerKind automation.ControllerName
          automation.NamespaceName recommended]) =
      .ok ((result, msg, targetPodCount, runningPods), log2))
    (hshort : runningPods < targetPodCount) :
    (executor.withSetResourcesAt log2 response).kube.SetResources log2
        automation.ControllerKind automation.ControllerName automation.NamespaceName
        (buildOriginalResourcesFromContainer container) = response ∧
    (executor.withSetResourcesAt log2 response).execute automation log =
      executor.execute automation log ∧
    ∃ feedback calls,
      executor.execute automation log = .ok ((feedback, none), log ++ calls) ∧
      feedback.Status = .AutomationFailed ∧ feedback.Message = "pods failed to restart" ∧
      mutationCalls calls =
        [Call.SetResources automation.ControllerKind automation.ControllerName
          automation.NamespaceName recommended,
         Call.SetResources automation.ControllerKind automation.ControllerName
          automation.NamespaceName (buildOriginalResourcesFromContainer container)] := by
  obtain ⟨⟨queries, hlog2, hq⟩, -⟩ := podsStatusHandler_calls _ _ _ _ _ _ _ _ hverify
  have hmq : mutationCalls queries = [] := mutationCalls_of_queries _ hq
  have hne : log ++ [Call.FindContainer automation.NamespaceName automation.ControllerKind
      automation.ControllerName automation.ContainerName] ≠ log2 := by
    intro h
    have hl := congrArg List.length h
    rw [hlog2] at hl
    simp only [List.length_append, List.length_singleton] at hl
    omega
  have happly1 : (executor.withSetResourcesAt log2 response).kube.SetResources
      (log ++ [Call.FindContainer automation.NamespaceName automation.ControllerKind
        automation.ControllerName automation.ContainerName])
      automation.ControllerKind automation.ControllerName automation.NamespaceName
      recommended = (skipped, none) := by
    simp only [Executor.withSetResourcesAt, hne, if_false]
    exact happly
  have hverify1 : (executor.withSetResourcesAt log2 response).podsStatusHandler
      automation.ControllerName automation.NamespaceName automation.ControllerKind statusMap
      (log ++ [Call.FindContainer automation.NamespaceName automation.ControllerKind
          automation.ControllerName automation.ContainerName] ++
        [Call.SetResources automation.ControllerKind automation.ControllerName
          automation.NamespaceName recommended]) =
      .ok ((result, msg, targetPodCount, runningPods), log2) := by
    rw [← hverify]
    exact podsStatusHandler_congr (executor.withSetResourcesAt log2 response) executor rfl rfl
      rfl rfl rfl rfl _ _ _ _ _
  have hexec := execute_shortfall_eq executor automation log log2 c container recommended
    skipped result msg targetPodCount runningPods hdry hfind htrans hrec happly hverify hshort
  have hexec1 := execute_shortfall_eq (executor.withSetResourcesAt log2 response) automation
    log log2 c container recommended skipped result msg targetPodCount runningPods hdry hfind
    htrans hrec happly1 hverify1 hshort
  refine ⟨by simp [Executor.withSetResourcesAt], by rw [hexec, hexec1],
    { ID := automation.ID, NamespaceName := automation.NamespaceName,
      ControllerName := automation.ControllerName,
      ControllerKind := automation.ControllerKind,
      ContainerName := automation.ContainerName, Status := .AutomationFailed,
      Message := "pods failed to restart" },
    [Call.FindContainer automation.NamespaceName automation.ControllerKind
        automation.ControllerName automation.ContainerName,
      Call.SetResources automation.ControllerKind automation.ControllerName
        automation.NamespaceName recommended] ++ queries ++
      [Call.SetResources automation.ControllerKind automation.ControllerName
        automation.NamespaceName (buildOriginalResourcesFromContainer container)],
    ?_, rfl, rfl, ?_⟩
  · rw [hexec, hlog2]
    simp only [List.append_assoc, List.singleton_append, List.cons_append, List.nil_append]
  · unfold mutationCalls at hmq ⊢
    simp [List.filter_append, hmq, List.filter_cons, Call.isMutation]

/-- C13 on a run: target count 3 and one Running pod when the ceiling elapses, with a
rollback call that fails. -/
theorem execute_rollback_outcome_ignored_witness :
    ((sampleExecutor false (false, none) (.ok sampleStatefulSet)
        (.ok [samplePod "web-0" PodRunning, samplePod "web-1" PodPending]) 1).withSetResourcesAt
        [Call.FindContainer "default" "StatefulSet" "web" "app",
         Call.SetResources "StatefulSet" "web" "default"
          { Containers :=
              [{ Name := "app", Requests := some { CPU := some 100, Memory := some 2048 },
                 Limits := some { CPU := some 200, Memory := none } }] },
         Call.GetStatefulSet "default" "web", Call.GetNameSpacePods "default"]
        (false, some "rollback refused")).execute sampleAutomation [] =
      (sampleExecutor false (false, none) (.ok sampleStatefulSet)
        (.ok [samplePod "web-0" PodRunning, samplePod "web-1" PodPending]) 1).execute
        sampleAutomation [] :=
  (execute_rollback_outcome_ignored
    (sampleExecutor false (false, none) (.ok sampleStatefulSet)
      (.ok [samplePod "web-0" PodRunning, samplePod "web-1" PodPending]) 1)
    sampleAutomation []
    [Call.FindContainer "default" "StatefulSet" "web" "app",
     Call.SetResources "StatefulSet" "web" "default"
      { Containers :=
          [{ Name := "app", Requests := some { CPU := some 100, Memory := some 2048 },
             Limits := some { CPU := some 200, Memory := none } }] },
     Call.GetStatefulSet "default" "web", Call.GetNameSpacePods "default"]
    (some sampleContainer) sampleContainer
    { Containers :=
        [{ Name := "app", Requests := some { CPU := some 100, Memory := some 2048 },
           Limits := some { CPU := some 200, Memory := none } }] }
    false .AutomationFailed "pods restarting exceeded timout (15 min)" 3 1
    (false, some "rollback refused") rfl rfl rfl rfl rfl rfl (by decide)).2.1

/-! ### Target of a deployment -/

/-- The replicas collected from a listing whose filtered replica sets declare a replica
count: each comes from a replica set that passes the filter, and each replica set that
passes the filter gives one. -/
theorem collectReplicas_spec (entityName : String) :
    ∀ items : List ReplicaSet,
      (∀ rs ∈ items, rs.SpecReplicas ≠ none) →
      ∃ l, collectReplicas entityName items = .ok l ∧
        (∀ r ∈ l, ∃ rs ∈ items, stringsContains rs.Name entityName = true ∧
          rs.StatusReplicas > 0 ∧ rs.Name = r.name ∧ rs.SpecReplicas = some r.replicas ∧
          rs.StatusReadyReplicas = r.readyReplicas ∧ rs.CreationTimestamp = r.time) ∧
        (∀ rs ∈ items, stringsContains rs.Name entityName = true → rs.StatusReplicas > 0 →
          ∃ r ∈ l, r.time = rs.CreationTimestamp) := by
  intro items
  induction items with
  | nil => intro _; exact ⟨[], rfl, by simp, by simp⟩
  | cons replica rest ih =>
    intro hdecl
    obtain ⟨l, hl, hfrom, hto⟩ := ih (fun rs hrs => hdecl rs (List.mem_cons_of_mem _ hrs))
    by_cases hpass : stringsContains replica.Name entityName = true ∧ replica.StatusReplicas > 0
    · obtain ⟨n, hn⟩ : ∃ n, replica.SpecReplicas = some n := by
        cases h : replica.SpecReplicas with
        | none => exact absurd h (hdecl replica (List.mem_cons_self _ _))
        | some n => exact ⟨n, rfl⟩
      refine ⟨{ name := replica.Name, replicas := n,
                readyReplicas := replica.StatusReadyReplicas,
                time := replica.CreationTimestamp } :: l, ?_, ?_, ?_⟩
      · simp only [collectReplicas, hpass.1, hpass.2, decide_True, Bool.and_self, if_true, hn, hl]
      · intro r hr
        rcases List.mem_cons.1 hr with rfl | hr
        · exact ⟨replica, List.mem_cons_self _ _, hpass.1, hpass.2, rfl, hn, rfl, rfl⟩
        · obtain ⟨rs, hrs, h⟩ := hfrom r hr
          exact ⟨rs, List.mem_cons_of_mem _ hrs, h⟩
      · intro rs hrs h1 h2
        rcases List.mem_cons.1 hrs with rfl | hrs
        · exact ⟨_, List.mem_cons_self _ _, rfl⟩
        · obtain ⟨r, hr, h⟩ := hto rs hrs h1 h2
          exact ⟨r, List.mem_cons_of_mem _ hr, h⟩
    · refine ⟨l, ?_, ?_, ?_⟩
      · have hcond : (stringsContains replica.Name entityName &&
            decide (replica.StatusReplicas > 0)) = false := by
          rw [Bool.and_eq_false_iff]
          by_cases h1 : stringsContains replica.Name entityName = true
          · right
            have h2 : ¬ replica.StatusReplicas > 0 := fun h2 => hpass ⟨h1, h2⟩
            simpa using h2
          · left; simpa using h1
        simp only [collectReplicas, hcond, Bool.false_eq_true, if_false, hl]
      · intro r hr
        obtain ⟨rs, hrs, h⟩ := hfrom r hr
        exact ⟨rs, List.mem_cons_of_mem _ hrs, h⟩
      · intro rs hrs h1 h2
        rcases List.mem_cons.1 hrs with rfl | hrs
        · exact absurd ⟨h1, h2⟩ hpass
        · exact hto rs hrs h1 h2

/-- Insertion keeps the elements. -/
theorem insertReplica_perm (less : Replica → Replica → Bool) (r : Replica) :
    ∀ l : List Replica, (insertReplica less r l).Perm (r :: l) := by
  intro l
  induction l with
  | nil => exact List.Perm.refl _
  | cons x xs ih =>
    simp only [insertReplica]
    split_ifs
    · exact (List.Perm.cons x ih).trans (List.Perm.swap r x xs)
    · exact List.Perm.refl _

/-- Insertion sort meets the contract of `sort.Slice` for the order of `deploymentsHandler`:
the result has the same elements, latest creation time first. -/
theorem insertionSort_contract (l : List Replica) :
    (insertionSort (fun a b => decide (a.time > b.time)) l).Perm l ∧
    (insertionSort (fun a b => decide (a.time > b.time)) l).Pairwise
      (fun a b => b.time ≤ a.time) := by
  induction l with
  | nil => exact ⟨List.Perm.refl _, List.Pairwise.nil⟩
  | cons x xs ih =>
    obtain ⟨hperm, hsorted⟩ := ih
    refine ⟨(insertReplica_perm _ x _).trans (List.Perm.cons x hperm), ?_⟩
    simp only [insertionSort]
    generalize insertionSort (fun a b => decide (a.time > b.time)) xs = ys at hsorted
    clear hperm
    induction ys with
    | nil => simp [insertReplica]
    | cons y ys ihy =>
      rw [List.pairwise_cons] at hsorted
      simp only [insertReplica]
      split_ifs with hlt
      · rw [List.pairwise_cons]
        refine ⟨?_, ihy hsorted.2⟩
        intro b hb
        rcases List.mem_cons.1 ((insertReplica_perm _ x ys).subset hb) with rfl | hb
        · simp only [gt_iff_lt, decide_eq_true_eq] at hlt
          omega
        · exact hsorted.1 b hb
      · simp only [gt_iff_lt, decide_eq_true_eq, not_lt] at hlt
        rw [List.pairwise_cons]
        refine ⟨?_, List.pairwise_cons.2 hsorted⟩
        intro b hb
        rcases List.mem_cons.1 hb with rfl | hb
        · exact hlt
        · have := hsorted.1 b hb
          omega

/-- C18: for every replica-set listing in which at least one replica set has a name
containing the base name and reports at least one replica (the replica sets declaring a
replica count and reporting a ready count that is not negative, the sort sorting),
`deploymentsHandler` returns the name and the declared replica count of a replica set
that passes the filter and whose creation time is the latest among those that pass it,
whatever its ready-replica count. -/
theorem deploymentsHandler_selects_latest (executor : Executor)
    (entityName namespaceName : String) (log : List Call) (items : List ReplicaSet)
    (err : Option String)
    (hlist : executor.kube.GetNamespaceReplicaSets log namespaceName = (some items, err))
    (hsome : ∃ rs ∈ items, stringsContains rs.Name entityName = true ∧ rs.StatusReplicas > 0)
    (hdeclared : ∀ rs ∈ items, rs.SpecReplicas ≠ none)
    (hready : ∀ rs ∈ items, 0 ≤ rs.StatusReadyReplicas)
    (hsort : ∀ l : List Replica,
      (executor.rt.sortSlice (fun a b => decide (a.time > b.time)) l).Perm l ∧
      (executor.rt.sortSlice (fun a b => decide (a.time > b.time)) l).Pairwise
        (fun a b => b.time ≤ a.time)) :
    ∃ rs ∈ items, ∃ n : Int,
      stringsContains rs.Name entityName = true ∧ rs.StatusReplicas > 0 ∧
      rs.SpecReplicas = some n ∧
      (∀ other ∈ items, stringsContains other.Name entityName = true →
        other.StatusReplicas > 0 → other.CreationTimestamp ≤ rs.CreationTimestamp) ∧
      executor.deploymentsHandler entityName namespaceName log =
        .ok ((rs.Name, n, none), log ++ [Call.GetNamespaceReplicaSets namespaceName]) := by
  obtain ⟨l, hl, hfrom, hto⟩ := collectReplicas_spec entityName items hdeclared
  obtain ⟨hperm, hsorted⟩ := hsort l
  cases hs : executor.rt.sortSlice (fun a b => decide (a.time > b.time)) l with
  | nil =>
    exfalso
    obtain ⟨rs, hrs, h1, h2⟩ := hsome
    obtain ⟨r, hr, -⟩ := hto rs hrs h1 h2
    rw [hs] at hperm
    have := hperm.symm.subset hr
    simp at this
  | cons r0 sorted =>
    rw [hs] at hperm hsorted
    have hr0 : r0 ∈ l := hperm.subset (List.mem_cons_self _ _)
    obtain ⟨rs, hrs, h1, h2, hname, hspec, hrdy, htime⟩ := hfrom r0 hr0
    refine ⟨rs, hrs, r0.replicas, h1, h2, hspec, ?_, ?_⟩
    · intro other hother ho1 ho2
      obtain ⟨r, hr, hrt⟩ := hto other hother ho1 ho2
      rw [← hrt, htime]
      rcases List.mem_cons.1 (hperm.symm.subset hr) with rfl | hmem
      · exact le_refl _
      · exact (List.pairwise_cons.1 hsorted).1 r hmem
    · have hge : r0.readyReplicas ≥ 0 := by
        rw [← hrdy]; exact hready rs hrs
      simp only [Executor.deploymentsHandler, hlist, hl, hs, hge, if_true, hname]

/-- C18 on a run: the newest replica set of `web` has no ready replica, an older one has
two, and a newer replica set belongs to another deployment. -/
theorem deploymentsHandler_selects_latest_witness :
    ∃ rs ∈ [sampleReplicaSet "web-7c9" 3 0 10, sampleReplicaSet "web-5d8" 2 2 5,
        sampleReplicaSet "db-66f" 1 1 50],
      ∃ n : Int,
        stringsContains rs.Name "web" = true ∧ rs.StatusReplicas > 0 ∧
        rs.SpecReplicas = some n ∧
        (∀ other ∈ [sampleReplicaSet "web-7c9" 3 0 10, sampleReplicaSet "web-5d8" 2 2 5,
            sampleReplicaSet "db-66f" 1 1 50],
          stringsContains other.Name "web" = true → other.StatusReplicas > 0 →
          other.CreationTimestamp ≤ rs.CreationTimestamp) ∧
        (sampleDeploymentExecutor
            (some [sampleReplicaSet "web-7c9" 3 0 10, sampleReplicaSet "web-5d8" 2 2 5,
              sampleReplicaSet "db-66f" 1 1 50], none) (.ok []) 1).deploymentsHandler
            "web" "default" [] =
          .ok ((rs.Name, n, none), [] ++ [Call.GetNamespaceReplicaSets "default"]) :=
  deploymentsHandler_selects_latest
    (sampleDeploymentExecutor
      (some [sampleReplicaSet "web-7c9" 3 0 10, sampleReplicaSet "web-5d8" 2 2 5,
        sampleReplicaSet "db-66f" 1 1 50], none) (.ok []) 1)
    "web" "default" []
    [sampleReplicaSet "web-7c9" 3 0 10, sampleReplicaSet "web-5d8" 2 2 5,
      sampleReplicaSet "db-66f" 1 1 50]
    none rfl
    ⟨sampleReplicaSet "web-7c9" 3 0 10, by simp, by decide, by decide⟩
    (by decide) (by decide) insertionSort_contract

/-! ### Metrics batches -/

/-- A full batch followed by the rest of the list is the list from the start of the batch. -/
theorem batch_append_rest (metrics : List Metric) (start : Nat) :
    (metrics.take (start + 1000)).drop start ++ metrics.drop (start + 1000) =
      metrics.drop start := by
  rw [List.drop_take, ← List.drop_drop 1000 start metrics]
  have h : start + 1000 - start = 1000 := by omega
  rw [h]
  exact List.take_append_drop 1000 (metrics.drop start)

/-- The loop of `SendMetrics` from batch `i` on: it does not panic, and the batches it sends
are the metrics from index `i * 1000` on, cut every 1000. -/
theorem sendMetricsLoop_spec (metrics : List Metric) :
    ∀ (remaining i : Nat),
      i + remaining = (metrics.length + 999) / 1000 →
      ∃ batches,
        sendMetricsLoop metrics ((metrics.length + 999) / 1000) (metrics.length % 1000)
          remaining i = .ok batches ∧
        batches.length = remaining ∧
        batches.flatten = metrics.drop (i * 1000) ∧
        (∀ b ∈ batches, 0 < b.length ∧ b.length ≤ 1000) ∧
        (∀ b ∈ batches.dropLast, b.length = 1000) := by
  intro remaining
  induction remaining with
  | zero =>
    intro i hi
    refine ⟨[], rfl, rfl, ?_, by simp, by simp⟩
    rw [List.drop_eq_nil_of_le (by omega)]
    rfl
  | succ remaining ih =>
    intro i hi
    obtain ⟨batches, hloop, hlen, hflat, hsize, hfull⟩ := ih (i + 1) (by omega)
    by_cases hlast : i = (metrics.length + 999) / 1000 - 1 ∧ metrics.length % 1000 > 0
    · have hrem : remaining = 0 := by omega
      subst hrem
      have hnil : batches = [] := List.length_eq_zero.1 hlen
      subst hnil
      have hstop : i * 1000 + metrics.length % 1000 = metrics.length := by omega
      refine ⟨[metrics.drop (i * 1000)], ?_, rfl, by simp, ?_, by simp⟩
      · simp only [sendMetricsLoop, metricsBatchMaxSize, sliceMetrics]
        rw [if_pos hlast, hstop, if_pos ⟨by omega, le_refl _⟩, List.take_length]
      · intro b hb
        simp only [List.mem_singleton] at hb
        subst hb
        rw [List.length_drop]
        omega
    · have hstop : i * 1000 + 1000 ≤ metrics.length := by omega
      refine ⟨(metrics.take (i * 1000 + 1000)).drop (i * 1000) :: batches, ?_, by simp [hlen],
        ?_, ?_, ?_⟩
      · simp only [sendMetricsLoop, metricsBatchMaxSize, sliceMetrics]
        rw [if_neg hlast, if_pos ⟨by omega, hstop⟩, hloop]
      · rw [List.flatten_cons, hflat]
        have h : (i + 1) * 1000 = i * 1000 + 1000 := by ring
        rw [h]
        exact batch_append_rest metrics (i * 1000)
      · intro b hb
        rcases List.mem_cons.1 hb with rfl | hb
        · rw [List.length_drop, List.length_take]
          omega
        · exact hsize b hb
      · intro b hb
        cases batches with
        | nil => simp at hb
        | cons b1 rest =>
          rw [List.dropLast_cons_of_ne_nil (by simp)] at hb
          rcases List.mem_cons.1 hb with rfl | hb
          · rw [List.length_drop, List.length_take]
            omega
          · exact hfull b hb

/-- C20: for every list of n metrics, `SendMetrics` does not exceed a slice bound and sends
ceil(n/1000) batches (none for an empty list); every batch is non-empty and has at most
1000 metrics, all batches but the last have exactly 1000, and the batches in sending
order concatenate to the input list. -/
theorem SendMetrics_batches (metrics : List Metric) :
    ∃ batches,
      SendMetrics metrics = .ok batches ∧
      batches.length = (metrics.length + 999) / 1000 ∧
      metrics.length ≤ 1000 * batches.length ∧
      1000 * batches.length < metrics.length + 1000 ∧
      (metrics = [] → batches = []) ∧
      batches.flatten = metrics ∧
      (∀ b ∈ batches, 0 < b.length ∧ b.length ≤ 1000) ∧
      (∀ b ∈ batches.dropLast, b.length = 1000) := by
  obtain ⟨batches, hloop, hlen, hflat, hsize, hfull⟩ :=
    sendMetricsLoop_spec metrics ((metrics.length + 999) / 1000) 0 (by omega)
  refine ⟨batches, hloop, hlen, by omega, by omega, ?_, by simpa using hflat, hsize, hfull⟩
  intro hnil
  subst hnil
  exact List.length_eq_zero.1 (by rw [hlen]; rfl)

/-- C20 on a run: 2001 metrics are sent as three batches that concatenate to the input. -/
theorem SendMetrics_batches_witness :
    ∃ batches,
      SendMetrics (List.replicate 2001 { Name := "cpu", Value := 1 }) = .ok batches ∧
      batches.length = 3 ∧
      batches.flatten = List.replicate 2001 { Name := "cpu", Value := 1 } ∧
      (∀ b ∈ batches, 0 < b.length ∧ b.length ≤ 1000) ∧
      (∀ b ∈ batches.dropLast, b.length = 1000) := by
  obtain ⟨batches, hsend, hlen, -, -, -, hflat, hsize, hfull⟩ :=
    SendMetrics_batches (List.replicate 2001 { Name := "cpu", Value := 1 })
  refine ⟨batches, hsend, ?_, hflat, hsize, hfull⟩
  rw [hlen, List.length_replicate]

end MagalixAgent
